import Mathlib

/-!
# OG-Xbox-FTP: the per-session protocol engine (`Includes/ftpConnection.cpp`)

A shallow embedding of `ftpConnection` as compiled for the console (the
`#ifdef NXDK` branches), together with theorems about it.

Conventions of the embedding
* `std::string` is a list of characters (`Str`); raw file and socket data are
  lists of byte values (`List Nat`).
* `size_t` is 32 bits wide on the target: `npos = 2^32 - 1`, and arithmetic on
  string positions is written with an explicit `% 2^32`.
* C++ exceptions (`std::out_of_range`, `std::invalid_argument`) and reads past
  the end of a string are results of type `Except Fault _`.
* Every call that leaves the class (sockets, filesystem, `ftpServer`) is
  recorded as an `Event`; what such a call answers is read from a `World`.
* `outputLine` (diagnostics) is not modelled.
* The command buffer `buf` holds `k_ftp_cmd_buffer_size` characters: a received line
  that fills it (the terminating zero is then written behind it) and a formatted reply
  that does not fit in it are writes outside the buffer, `Fault.out_of_bounds`.
-/

namespace OGXboxFTP

/-! ## Strings -/

/-- A `std::string`: a sequence of characters. -/
abbrev Str := List Char

/-- What can go wrong inside a handler. -/
inductive Fault where
  /-- The exception `std::out_of_range`, thrown by `substr` and by `stoi`. -/
  | out_of_range
  /-- The exception `std::invalid_argument`, thrown by `stoi`. -/
  | invalid_argument
  /-- A read or write outside the storage of a string or buffer. -/
  | out_of_bounds
  deriving DecidableEq, Repr

deriving instance DecidableEq for Except

/-- Width of `size_t` on the target. -/
def sizeBits : Nat := 32

/-- The value `std::string::npos`, the largest `size_t`. -/
def npos : Nat := 2 ^ sizeBits - 1

/-- Addition of `size_t` values. -/
def sizeAdd (a b : Nat) : Nat := (a + b) % 2 ^ sizeBits

/-- Subtraction of `size_t` values. -/
def sizeSub (a b : Nat) : Nat := (a + 2 ^ sizeBits - b % 2 ^ sizeBits) % 2 ^ sizeBits

/-- The expression `s[i]`: the character at `i`, and the terminating zero at
`i = s.size()`.  Every use in the source has `i ≤ s.size()`. -/
def charAt (s : Str) (i : Nat) : Char := s.getD i '\x00'

/-- The call `s.find(c, pos)`: the first position `≥ pos` holding `c`, or `npos`. -/
def find (s : Str) (c : Char) (pos : Nat) : Nat :=
  if c ∈ s.drop pos then pos + (s.drop pos).indexOf c else npos

/-- The call `s.rfind(c, pos)`: the last position `≤ pos` holding `c`, or `npos`. -/
def rfind (s : Str) (c : Char) (pos : Nat) : Nat :=
  let t := s.take (pos + 1)
  if c ∈ t then t.length - 1 - t.reverse.indexOf c else npos

/-- The call `s.substr(pos, count)`: the characters from `pos` on, at most `count` of
them and all of them when `count` is `npos`; throws when `pos > s.size()`. -/
def substr (s : Str) (pos count : Nat) : Except Fault Str :=
  if pos > s.length then .error .out_of_range
  else if count = npos then .ok (s.drop pos)
  else .ok ((s.drop pos).take count)

/-- The call `std::replace(s.begin(), s.end(), a, b)`. -/
def replace (s : Str) (a b : Char) : Str := s.map (fun c => if c = a then b else c)

/-- Reading a zero-terminated character array: the characters before the first zero.
This is `s.c_str()` seen as a C string, and `std::string(const char*)`. -/
def c_str (s : Str) : Str := s.takeWhile (fun c => c != '\x00')

/-! ## Path translation -/

/-- The method `ftpConnection::unixToDosPath`. -/
def unixToDosPath (path : Str) : Except Fault Str := do
  let ret ← if charAt path 0 = '/' ∧ charAt path 1 = '/' then substr path 1 npos else pure path
  let letter ← substr ret 1 1
  let tail ← substr path 2 npos
  pure (replace (letter ++ ":".toList ++ tail) '/' '\\')

/-- The first part of `ftpConnection::cmdCwd`: the value of `tmpPwd` computed
from the working directory and the argument. -/
def cwdTarget (pwd arg : Str) : Except Fault Str :=
  if charAt arg 0 = '.' ∧ charAt arg 1 = '.' then
    substr pwd 0 (sizeAdd (rfind pwd '/' (sizeSub (rfind pwd '/' npos) 1)) 1)
  else if charAt arg 0 = '/' then
    if arg.length > 1 then pure (arg ++ "/".toList) else pure "/".toList
  else
    pure (pwd ++ arg ++ "/".toList)

/-! ## Numbers -/

/-- Conversion to `int` (32 bits, two's complement): also the result of `int` arithmetic. -/
def wrapInt (i : Int) : Int := (i + 2 ^ 31) % 2 ^ 32 - 2 ^ 31

/-- Conversion of an `int` to `size_t`. -/
def toSize (i : Int) : Nat := (i % 2 ^ sizeBits).toNat

/-- The function `isspace` in the "C" locale. -/
def isspace (c : Char) : Bool :=
  c = ' ' || c = '\t' || c = '\n' || c = '\x0b' || c = '\x0c' || c = '\r'

/-- The call `std::stoi(s)`: leading white space, an optional sign, then decimal digits;
what follows the digits is ignored.  Throws `invalid_argument` when there is no digit and
`out_of_range` when the value does not fit an `int`. -/
def stoi (s : Str) : Except Fault Int :=
  let t := s.dropWhile isspace
  let neg := charAt t 0 = '-'
  let u := if charAt t 0 = '-' ∨ charAt t 0 = '+' then t.drop 1 else t
  let ds := u.takeWhile Char.isDigit
  let v : Int := ds.foldl (fun a d => 10 * a + (d.toNat - 48 : Nat)) (0 : Nat)
  let r : Int := if neg then -v else v
  if ds = [] then .error .invalid_argument
  else if r < -(2 ^ 31) ∨ r > 2 ^ 31 - 1 then .error .out_of_range
  else .ok r

/-- The call `std::to_string(i)` on an integer. -/
def to_string (i : Int) : Str :=
  if i < 0 then '-' :: (Nat.repr i.natAbs).toList else (Nat.repr i.natAbs).toList

/-! ## Constants -/

def k_ftp_cmd_buffer_size : Nat := 1024
def k_ftp_data_buffer_size : Nat := 64 * 1024

def k_drives : List Char := ['C', 'D', 'E', 'F', 'G', 'X', 'Y', 'Z']

def k_reply_please_login : Str := "220 Please enter your login name now.\r\n".toList
def k_reply_password_required : Str := "331 Password required.\r\n".toList
def k_reply_user_logged_in : Str := "230 User logged in, proceed.\r\n".toList
def k_reply_unix_type_l8 : Str := "215 UNIX type: L8\r\n".toList
def k_reply_port_command_ok : Str := "200 Port command ok.\r\n".toList
def k_reply_opening_ascii_data_connection_for_ls : Str :=
  "150 Opening ASCII data connection for ls\r\n".toList
def k_reply_data_transfer_finished_successfully : Str :=
  "226 Data transfer finished successfully. Data connection closed.\r\n".toList
def k_reply_command_parameter_not_implemented : Str :=
  "504 Command parameter not implemented.\r\n".toList
def k_reply_file_action_ok : Str := "250 Requested file action ok.\r\n".toList
def k_reply_action_not_taken : Str := "553 Requested action not taken.\r\n".toList
def k_reply_not_logged_in : Str := "530 Not logged in.\r\n".toList

/-- The text the format `k_reply_format_current_directory_pwd` gives for `dir`. -/
def k_reply_format_current_directory_pwd (dir : Str) : Str :=
  "257 \"".toList ++ c_str dir ++ "\" is current directory\r\n".toList

/-- The text the format `k_reply_not_implemented` gives for `verb`. -/
def k_reply_not_implemented (verb : Str) : Str :=
  "502 ".toList ++ c_str verb ++ " not implemented.\r\n".toList

/-- The text the format `k_reply_format_type_set_to` gives for `name`. -/
def k_reply_format_type_set_to (name : Str) : Str :=
  "200 Type set to ".toList ++ c_str name ++ "\r\n".toList

/-- The text the format `k_reply_format_current_directory_cwd` gives for `dir`. -/
def k_reply_format_current_directory_cwd (dir : Str) : Str :=
  "250 \"".toList ++ c_str dir ++ "\" is current directory.\r\n".toList

/-- The call `sprintf(buf.get(), format, ...)` followed by reading `buf` back, for the
formatted text `text`: the text and its terminating zero are written to `buf`, which holds
`k_ftp_cmd_buffer_size` characters; a longer text is written past the end of `buf`. -/
def sprintf (text : Str) : Except Fault Str :=
  if text.length + 1 > k_ftp_cmd_buffer_size then .error .out_of_bounds else .ok text

/-! ## Configuration (`Includes/config.cpp`) -/

/-- The class `ftpConfig`. -/
structure ftpConfig where
  enable : Bool
  username : Str
  password : Str
  port : Int
  deriving DecidableEq, Repr

/-- The constructor `ftpConfig::ftpConfig()`. -/
def ftpConfig.default : ftpConfig :=
  { enable := true, username := "xbox".toList, password := "xbox".toList, port := 21 }

/-! ## The outside world -/

/-- What `recv` answers: `-1`, or the bytes it stored (none at all: the peer has closed). -/
inductive RecvResult (α : Type) where
  | error
  | data (bytes : List α)
  deriving DecidableEq, Repr

/-- One directory entry as the listing uses it: `WIN32_FIND_DATAA` and the
`TIME_FIELDS` of its last write time. -/
structure FindData where
  cFileName : Str
  isDirectory : Bool
  nFileSizeLow : Nat
  Year : Int
  Month : Int
  Day : Int
  Hour : Int
  Minute : Int
  deriving DecidableEq, Repr

/-- A call that leaves the class.  The read on the control channel that starts
`update` is the input of `update` and is not recorded. -/
inductive Event where
  /-- The call `sendStdString(fd, text)`. -/
  | send (fd : Int) (text : Str)
  /-- The call `send(fd, buffer, n, 0)` on raw bytes. -/
  | sendData (fd : Int) (bytes : List Nat)
  /-- A call of `recv` on the data socket. -/
  | recv (fd : Int)
  | close (fd : Int)
  /-- The call `server->openConnection(address, port)`. -/
  | openConnection (address port : Str)
  | nxIsDriveMounted (drive : Char)
  /-- A call of `CreateFile`; `write` tells `GENERIC_WRITE`/`CREATE_ALWAYS` from
  `GENERIC_READ`/`OPEN_EXISTING`. -/
  | CreateFile (path : Str) (write : Bool)
  | CloseHandle
  | ReadFile
  /-- A call of `WriteFile` on `bytes`, of which `written` were reported written. -/
  | WriteFile (bytes : List Nat) (written : Nat)
  | DeleteFile (path : Str)
  | CreateDirectoryA (path : Str)
  | RemoveDirectoryA (path : Str)
  | MoveFileA (source target : Str)
  | FindFirstFileA (mask : Str)
  | FindNextFile
  | FindClose
  deriving DecidableEq, Repr

/-- The answers of the collaborators during one call of `update`. -/
structure World where
  /-- The method `ftpServer::openConnection`: the socket, or `-1`. -/
  openConnection : Str → Str → Int
  nxIsDriveMounted : Char → Bool
  /-- Whether `CreateFile(path, GENERIC_READ, .., OPEN_EXISTING, ..)` returns a valid handle. -/
  openExisting : Str → Bool
  /-- Whether `CreateFile(path, GENERIC_WRITE, .., CREATE_ALWAYS, ..)` returns a valid handle. -/
  createAlways : Str → Bool
  DeleteFile : Str → Bool
  CreateDirectoryA : Str → Bool
  RemoveDirectoryA : Str → Bool
  MoveFileA : Str → Str → Bool
  /-- The entries `FindFirstFileA`/`FindNextFile` yield for a mask; none at all:
  `FindFirstFileA` returned `INVALID_HANDLE_VALUE`. -/
  findFiles : Str → List FindData
  /-- The bytes stored by the successive `ReadFile` calls on a file (each at most
  `bytesToRead` long); after the last one `ReadFile` reports nothing more. -/
  readChunks : Str → List (List Nat)
  /-- The contents of the freshly allocated `sendBuffer`. -/
  sendBuffer : List Nat
  /-- The answers of the successive `recv` calls on the data socket; after the
  last one the peer has closed. -/
  dataRecv : List (RecvResult Nat)
  /-- The value of `bytesWritten` reported by the `k`-th `WriteFile` call for the given bytes. -/
  WriteFile : Nat → List Nat → Nat

/-! ## Handlers: effects and faults -/

/-- The run of a piece of code: the calls it made, in order, and how it ended. -/
structure Step (α : Type) where
  events : List Event
  result : Except Fault α

instance {α : Type} [DecidableEq α] : DecidableEq (Step α) := fun a b =>
  match a, b with
  | ⟨e₁, r₁⟩, ⟨e₂, r₂⟩ =>
    if h : e₁ = e₂ ∧ r₁ = r₂ then isTrue (by rw [h.1, h.2])
    else isFalse (fun h' => h (by cases h'; exact ⟨rfl, rfl⟩))

/-- Sequencing: the second part runs only when the first did not throw. -/
def Step.bind {α β : Type} (x : Step α) (f : α → Step β) : Step β :=
  match x.result with
  | .ok a => ⟨x.events ++ (f a).events, (f a).result⟩
  | .error e => ⟨x.events, .error e⟩

instance : Monad Step where
  pure a := ⟨[], .ok a⟩
  bind := Step.bind

/-- Record one call. -/
def emit (e : Event) : Step Unit := ⟨[e], .ok ()⟩

/-- Run a computation that makes no call. -/
def liftE {α : Type} (x : Except Fault α) : Step α := ⟨[], x⟩

/-- The fields of `ftpConnection` (without `buf` and `server`). -/
structure Session where
  _fd : Int
  dataFd : Int
  pwd : Str
  logged_in : Bool
  mode : Char
  rnfr : Str
  deriving DecidableEq, Repr

/-- The method `sendStdString(s)`: `s` on the control socket. -/
def sendStdString (s : Session) (text : Str) : Step Unit := emit (.send s._fd text)

/-- The constructor `ftpConnection::ftpConnection`.  It does not assign `dataFd`:
`uninitialised` is the value the field happens to hold. -/
def ftpConnection (fd : Int) (uninitialised : Int) : Step Session := do
  let s : Session :=
    { _fd := fd, dataFd := uninitialised, pwd := "/".toList, logged_in := false,
      mode := 'I', rnfr := [] }
  sendStdString s k_reply_please_login
  pure s

/-! ## Listing and transfer -/

/-- The line `sendFolderContents` sends for one directory entry. -/
def listingLine (just_files : Bool) (d : FindData) : Str :=
  if just_files then c_str d.cFileName ++ "\r\n".toList
  else
    (if d.isDirectory then "d".toList else "-".toList) ++
      ("rwxr-xr-x 1 XBOX XBOX ".toList ++ to_string d.nFileSizeLow ++ " ".toList ++
        to_string d.Year ++ "-".toList ++ to_string d.Month ++ "-".toList ++ to_string d.Day ++
        " ".toList ++ to_string d.Hour ++ ":".toList ++ to_string d.Minute ++ " ".toList ++
        c_str d.cFileName ++ "\r\n".toList)

/-- The loop over `k_drives` in `sendFolderContents`. -/
def sendDrives (w : World) (fd : Int) (just_files : Bool) : List Char → Step Unit
  | [] => pure ()
  | drive :: rest => do
    emit (.nxIsDriveMounted drive)
    if w.nxIsDriveMounted drive then
      let preamble := if just_files then [] else "drwxr-xr-x 1 XBOX XBOX 0 2020-03-02 10:41 ".toList
      emit (.send fd (preamble ++ [drive] ++ "\r\n".toList))
    sendDrives w fd just_files rest

/-- The `do ... while (FindNextFile(..) != 0)` loop of `sendFolderContents`, on the
entries from the current one on. -/
def sendEntries (fd : Int) (just_files : Bool) : List FindData → Step Unit
  | [] => pure ()
  | d :: rest => do
    emit (.send fd (listingLine just_files d))
    emit .FindNextFile
    sendEntries fd just_files rest

/-- The method `ftpConnection::sendFolderContents`. -/
def sendFolderContents (w : World) (fd : Int) (path : Str) (just_files : Bool) : Step Unit := do
  let path_to_search ← liftE
    (if charAt path 0 = '/' ∧ charAt path 1 = '/' then substr path 1 npos else pure path)
  if path_to_search = "/".toList then
    sendDrives w fd just_files k_drives
  else do
    let searchmask ← liftE (unixToDosPath (path_to_search ++ "*".toList))
    emit (.FindFirstFileA (c_str searchmask))
    match w.findFiles (c_str searchmask) with
    | [] => pure ()
    | d :: rest => do
      sendEntries fd just_files (d :: rest)
      emit .FindClose

/-- The assignment `abuf = reinterpret_cast<char *>(sendBuffer.get())`: the bytes of the
buffer before its first zero byte.  Without a zero byte the read leaves the buffer. -/
def cstring (buffer : List Nat) : Except Fault (List Nat) :=
  if 0 ∈ buffer then .ok (buffer.takeWhile (fun b => b != 0)) else .error .out_of_bounds

/-- One pass of a loop of `sendFile`: the bytes handed to `send`, given the contents of
`sendBuffer` after `ReadFile` and the count `bytesRead`.  In mode `A` the bytes are taken
from the string `abuf`, whose storage holds its characters and one terminating zero. -/
def sendChunk (mode : Char) (buffer : List Nat) (bytesRead : Nat) : Except Fault (List Nat) :=
  if mode = 'I' then .ok (buffer.take bytesRead)
  else do
    let abuf ← cstring buffer
    if bytesRead ≤ abuf.length + 1 then
      .ok (((abuf ++ [0]).take bytesRead).map (fun c => c &&& 0x7F))
    else .error .out_of_bounds

/-- A `while (ReadFile(..) && (bytesRead > 0))` loop of `sendFile`: `buffer` is the
contents of `sendBuffer`, the list holds what the coming `ReadFile` calls store. -/
def sendLoop (mode : Char) (dataFd : Int) : List Nat → List (List Nat) → Step Unit
  | _, [] => emit .ReadFile
  | buffer, chunk :: rest => do
    emit .ReadFile
    if chunk.length > 0 then
      let out ← liftE (sendChunk mode (chunk ++ buffer.drop chunk.length) chunk.length)
      emit (.sendData dataFd out)
      sendLoop mode dataFd (chunk ++ buffer.drop chunk.length) rest
    else pure ()

/-- The method `ftpConnection::sendFile`. -/
def sendFile (w : World) (s : Session) (filename : Str) : Step Bool := do
  let filePath ← liftE (unixToDosPath filename)
  emit (.CreateFile (c_str filePath) false)
  if !w.openExisting (c_str filePath) then
    pure false
  else do
    if s.mode = 'I' then
      sendLoop 'I' s.dataFd w.sendBuffer (w.readChunks (c_str filePath))
    else if s.mode = 'A' then
      sendLoop 'A' s.dataFd w.sendBuffer (w.readChunks (c_str filePath))
    emit .CloseHandle
    pure true

/-- The `while ((bytesRead = recv(..)))` loop of `recvFile`: `k` counts the `WriteFile`
calls made so far, `retVal` is the variable of that name, the list holds what the coming
`recv` calls answer. -/
def recvLoop (w : World) (dataFd : Int) : Nat → Bool → List (RecvResult Nat) → Step Bool
  | _, retVal, [] => do
    emit (.recv dataFd)
    pure retVal
  | k, retVal, r :: rest => do
    emit (.recv dataFd)
    match r with
    | .error => pure false
    | .data bytes =>
      if bytes.length = 0 then pure retVal
      else do
        emit (.WriteFile bytes (w.WriteFile k bytes))
        recvLoop w dataFd (k + 1)
          (if w.WriteFile k bytes ≠ bytes.length then false else retVal) rest

/-- The method `ftpConnection::recvFile`. -/
def recvFile (w : World) (s : Session) (filename : Str) : Step Bool := do
  let filePath ← liftE (unixToDosPath filename)
  emit (.CreateFile (c_str filePath) true)
  if !w.createAlways (c_str filePath) then
    pure false
  else do
    let retVal ← recvLoop w s.dataFd 0 true w.dataRecv
    emit .CloseHandle
    pure retVal

/-! ## Command handlers -/

/-- The method `ftpConnection::cmdUnimplemented`. -/
def cmdUnimplemented (s : Session) (arg : Str) : Step Session := do
  let reply ← liftE (sprintf (k_reply_not_implemented arg))
  sendStdString s reply
  pure s

/-- The method `ftpConnection::cmdUser`. -/
def cmdUser (conf : ftpConfig) (s : Session) (arg : Str) : Step Session := do
  if arg = conf.username then
    sendStdString s k_reply_password_required
  else
    sendStdString s "530 login authentication failed.\r\n".toList
  pure s

/-- The method `ftpConnection::cmdPass`. -/
def cmdPass (conf : ftpConfig) (s : Session) (arg : Str) : Step Session := do
  if arg = conf.password then
    sendStdString s k_reply_user_logged_in
    pure { s with logged_in := true }
  else
    sendStdString s "530 login authentication failed.\r\n".toList
    pure s

/-- The method `ftpConnection::cmdPwd`. -/
def cmdPwd (s : Session) : Step Session := do
  let reply ← liftE (sprintf (k_reply_format_current_directory_pwd s.pwd))
  sendStdString s reply
  pure s

/-- The method `ftpConnection::cmdType`. -/
def cmdType (s : Session) (arg : Str) : Step Session := do
  if charAt arg 0 = 'I' then
    let reply ← liftE (sprintf (k_reply_format_type_set_to "IMAGE".toList))
    sendStdString s reply
    pure { s with mode := 'I' }
  else if charAt arg 0 = 'A' then
    let reply ← liftE (sprintf (k_reply_format_type_set_to "ASCII".toList))
    sendStdString s reply
    pure { s with mode := 'A' }
  else
    sendStdString s k_reply_command_parameter_not_implemented
    pure s

/-- The method `ftpConnection::cmdCwd`. -/
def cmdCwd (w : World) (s : Session) (arg : Str) : Step Session := do
  let tmpPwd ← liftE (cwdTarget s.pwd arg)
  if tmpPwd.length > 1 then
    let tmpDosPwd ← liftE (unixToDosPath tmpPwd)
    emit (.CreateFile (c_str tmpDosPwd) false)
    if w.openExisting (c_str tmpDosPwd) then
      let reply ← liftE (sprintf (k_reply_format_current_directory_cwd tmpPwd))
      sendStdString s reply
      emit .CloseHandle
      pure { s with pwd := tmpPwd }
    else
      sendStdString s k_reply_not_logged_in
      emit .CloseHandle
      pure s
  else
    let reply ← liftE (sprintf (k_reply_format_current_directory_cwd "/".toList))
    sendStdString s reply
    pure { s with pwd := "/".toList }

/-- The name a file command works on: the argument when it starts with `/`, else the
working directory followed by the argument. -/
def resolveName (s : Session) (arg : Str) : Str :=
  if charAt arg 0 ≠ '/' then s.pwd ++ arg else arg

/-- The method `ftpConnection::cmdDele`. -/
def cmdDele (w : World) (s : Session) (arg : Str) : Step Session := do
  let filename ← liftE (unixToDosPath (resolveName s arg))
  emit (.DeleteFile (c_str filename))
  if w.DeleteFile (c_str filename) then
    sendStdString s k_reply_file_action_ok
  else
    sendStdString s k_reply_action_not_taken
  pure s

/-- The method `ftpConnection::cmdCdup`. -/
def cmdCdup (w : World) (s : Session) : Step Session := cmdCwd w s "..".toList

/-- The method `ftpConnection::cmdSyst`. -/
def cmdSyst (s : Session) : Step Session := do
  sendStdString s k_reply_unix_type_l8
  pure s

/-- The first part of `ftpConnection::cmdPort`: the strings `address` and `port` computed
from the argument. -/
def portTarget (arg : Str) : Except Fault (Str × Str) := do
  let valueSep₀ : Int := wrapInt (find arg ',' 0)
  let valueSep₁ : Int := wrapInt (find arg ',' (toSize (wrapInt (valueSep₀ + 1))))
  let valueSep₂ : Int := wrapInt (find arg ',' (toSize (wrapInt (valueSep₁ + 1))))
  let valueSep₃ : Int := wrapInt (find arg ',' (toSize (wrapInt (valueSep₂ + 1))))
  let address₀ ← substr arg 0 (toSize valueSep₃)
  let address := replace address₀ ',' '.'
  let cmdDataSep₀ : Int := wrapInt (valueSep₃ + 1)
  let valueSep₄ : Int := wrapInt (find arg ',' (toSize cmdDataSep₀))
  let p1 ← substr arg (toSize cmdDataSep₀) (toSize (wrapInt (valueSep₄ - cmdDataSep₀)))
  let cmdDataSep₁ : Int := wrapInt (valueSep₄ + 1)
  let p2 ← substr arg (toSize cmdDataSep₁) npos
  let n1 ← stoi p1
  let n2 ← stoi p2
  pure (address, to_string (wrapInt (wrapInt (n1 * 256) + n2)))

/-- The method `ftpConnection::cmdPort`. -/
def cmdPort (w : World) (s : Session) (arg : Str) : Step Session := do
  let target ← liftE (portTarget arg)
  emit (.openConnection target.1 target.2)
  let dataFd := w.openConnection target.1 target.2
  if dataFd ≠ -1 then
    sendStdString s k_reply_port_command_ok
  else
    sendStdString s "425 Socket creation failed.".toList
  pure { s with dataFd := dataFd }

/-- The method `ftpConnection::cmdMkd`. -/
def cmdMkd (w : World) (s : Session) (arg : Str) : Step Session := do
  let filename ← liftE (unixToDosPath (resolveName s arg))
  emit (.CreateDirectoryA (c_str filename))
  if w.CreateDirectoryA (c_str filename) then
    sendStdString s k_reply_file_action_ok
  else
    sendStdString s k_reply_action_not_taken
  pure s

/-- The method `ftpConnection::cmdRmd`. -/
def cmdRmd (w : World) (s : Session) (arg : Str) : Step Session := do
  let filename ← liftE (unixToDosPath (resolveName s arg))
  emit (.RemoveDirectoryA (c_str filename))
  if w.RemoveDirectoryA (c_str filename) then
    sendStdString s k_reply_file_action_ok
  else
    sendStdString s k_reply_action_not_taken
  pure s

/-- The method `ftpConnection::cmdRnfr`. -/
def cmdRnfr (s : Session) (arg : Str) : Step Session := do
  let rnfr ← liftE (unixToDosPath (resolveName s arg))
  sendStdString s "350 File action pending further information.\r\n".toList
  pure { s with rnfr := rnfr }

/-- The method `ftpConnection::cmdRnto`. -/
def cmdRnto (w : World) (s : Session) (arg : Str) : Step Session := do
  let filename ← liftE (unixToDosPath (resolveName s arg))
  emit (.MoveFileA (c_str s.rnfr) (c_str filename))
  if w.MoveFileA (c_str s.rnfr) (c_str filename) then
    sendStdString s k_reply_file_action_ok
  else
    sendStdString s k_reply_action_not_taken
  pure { s with rnfr := [] }

/-- The directory a listing command shows: `(arg.empty() || arg == " ") ? pwd : arg`. -/
def listPath (s : Session) (arg : Str) : Str :=
  if arg = [] ∨ arg = " ".toList then s.pwd else arg

/-- The method `ftpConnection::cmdList`. -/
def cmdList (w : World) (s : Session) (arg : Str) : Step Session := do
  if s.dataFd ≠ -1 then
    sendStdString s k_reply_opening_ascii_data_connection_for_ls
    sendFolderContents w s.dataFd (listPath s arg) false
    emit (.close s.dataFd)
    sendStdString s k_reply_data_transfer_finished_successfully
  pure s

/-- The method `ftpConnection::cmdNlst`. -/
def cmdNlst (w : World) (s : Session) (arg : Str) : Step Session := do
  if s.dataFd ≠ -1 then
    sendStdString s k_reply_opening_ascii_data_connection_for_ls
    sendFolderContents w s.dataFd (listPath s arg) true
    emit (.close s.dataFd)
    sendStdString s k_reply_data_transfer_finished_successfully
  pure s

/-- The address family read by `ftpConnection::cmdEprt`: `std::stoi(arg.substr(1, 1))`. -/
def eprtFamily (arg : Str) : Except Fault Int := do
  let token ← substr arg 1 1
  stoi token

/-- The middle part of `ftpConnection::cmdEprt`: the strings `address` and `port` computed
from the argument. -/
def eprtTarget (arg : Str) : Except Fault (Str × Str) := do
  let delimiter := charAt arg 0
  let portDelimiter₀ : Int := wrapInt (find arg delimiter 3)
  let address ← substr arg 3 (sizeSub (find arg delimiter (toSize portDelimiter₀)) 3)
  let portDelimiter : Int := wrapInt (portDelimiter₀ + 1)
  let port ← substr arg (toSize portDelimiter)
    (sizeSub (find arg delimiter (toSize portDelimiter)) (toSize portDelimiter))
  pure (address, port)

/-- The method `ftpConnection::cmdEprt`. -/
def cmdEprt (w : World) (s : Session) (arg : Str) : Step Session := do
  let family ← liftE (eprtFamily arg)
  if family ≠ 1 ∧ family ≠ 2 then
    sendStdString s "502 Unknown address family; use (1,2)\r\n".toList
    pure s
  else
    let target ← liftE (eprtTarget arg)
    emit (.openConnection target.1 target.2)
    let dataFd := w.openConnection target.1 target.2
    if dataFd ≠ -1 then
      sendStdString s k_reply_port_command_ok
    else
      sendStdString s "425 Socket creation failed.".toList
    pure { s with dataFd := dataFd }

/-- The method `ftpConnection::cmdRetr`. -/
def cmdRetr (w : World) (s : Session) (arg : Str) : Step Session := do
  if s.dataFd ≠ -1 then
    sendStdString s ("150 Sending file ".toList ++ arg ++ "\r\n".toList)
    let _ ← sendFile w s (resolveName s arg)
    emit (.close s.dataFd)
    sendStdString s k_reply_data_transfer_finished_successfully
  pure s

/-- The method `ftpConnection::cmdStor`. -/
def cmdStor (w : World) (s : Session) (arg : Str) : Step Session := do
  if s.dataFd ≠ -1 then
    sendStdString s ("150 Receiving file ".toList ++ arg ++ "\r\n".toList)
    let _ ← recvFile w s (resolveName s arg)
    emit (.close s.dataFd)
    sendStdString s k_reply_data_transfer_finished_successfully
  pure s

/-! ## The dispatcher -/

/-- The parsing at the head of `update`: the verb `cmd` and the argument `arg` of the
received text `recvdata`. -/
def parseCommand (recvdata : Str) : Except Fault (Str × Str) := do
  let cmdDataSep := find recvdata ' ' 0
  if cmdDataSep = npos then
    let cmd ← substr recvdata 0 (find recvdata '\r' 0)
    pure (cmd, " ".toList)
  else
    let arg ← substr recvdata (sizeAdd cmdDataSep 1)
      (sizeSub (find recvdata '\r' 0) (sizeAdd cmdDataSep 1))
    let cmd ← substr recvdata 0 cmdDataSep
    pure (cmd, arg)

/-- The chain of comparisons in `update` that routes a verb to its handler. -/
def dispatch (conf : ftpConfig) (w : World) (s : Session) (cmd arg : Str) : Step Session :=
  if cmd = "USER".toList then cmdUser conf s arg
  else if cmd = "PASS".toList then cmdPass conf s arg
  else if cmd = "AUTH".toList then cmdUnimplemented s cmd
  else if s.logged_in then
    if cmd = "ABOR".toList then cmdUnimplemented s cmd
    else if cmd = "CWD".toList then cmdCwd w s arg
    else if cmd = "CDUP".toList then cmdCdup w s
    else if cmd = "DELE".toList then cmdDele w s arg
    else if cmd = "LIST".toList then cmdList w s arg
    else if cmd = "MDTM".toList then cmdUnimplemented s cmd
    else if cmd = "MKD".toList then cmdMkd w s arg
    else if cmd = "NLST".toList then cmdNlst w s arg
    else if cmd = "PASV".toList then cmdUnimplemented s cmd
    else if cmd = "PORT".toList then cmdPort w s arg
    else if cmd = "EPRT".toList then cmdEprt w s arg
    else if cmd = "PWD".toList then cmdPwd s
    else if cmd = "QUIT".toList then cmdUnimplemented s cmd
    else if cmd = "RETR".toList then cmdRetr w s arg
    else if cmd = "RMD".toList then cmdRmd w s arg
    else if cmd = "RNFR".toList then cmdRnfr s arg
    else if cmd = "RNTO".toList then cmdRnto w s arg
    else if cmd = "SITE".toList then cmdUnimplemented s cmd
    else if cmd = "SIZE".toList then cmdUnimplemented s cmd
    else if cmd = "STOR".toList then cmdStor w s arg
    else if cmd = "SYST".toList then cmdSyst s
    else if cmd = "TYPE".toList then cmdType s arg
    else cmdUnimplemented s cmd
  else do
    sendStdString s k_reply_not_logged_in
    pure s

/-- The method `ftpConnection::update`, given what `recv` on the control socket answered.
The value is the returned flag (`true`: keep serving) and the session afterwards.
The member `buf` is allocated with `new` in the constructor, so `!buf` is never true.
`recv` stores at most `k_ftp_cmd_buffer_size` bytes in `buf` (of a longer delivery it
stores that many); when it stores that many, `buf[nbytes] = 0` writes behind the last
character of `buf`. -/
def update (conf : ftpConfig) (w : World) (s : Session) (r : RecvResult Char) :
    Step (Bool × Session) :=
  match r with
  | .error => pure (false, s)
  | .data bytes =>
    if (bytes.length : Int) ≤ 0 then pure (false, s)
    else if k_ftp_cmd_buffer_size ≤ bytes.length then liftE (.error .out_of_bounds)
    else do
      let (cmd, arg) ← liftE (parseCommand (c_str bytes))
      let s' ← dispatch conf w s cmd arg
      pure (true, s')

/-! ## Sample collaborators and sessions -/

/-- A world in which every connection opens as socket 7, every path exists and every call
succeeds; directories and files are empty and the data socket delivers nothing. -/
def World.permissive : World :=
  { openConnection := fun _ _ => 7
    nxIsDriveMounted := fun _ => true
    openExisting := fun _ => true
    createAlways := fun _ => true
    DeleteFile := fun _ => true
    CreateDirectoryA := fun _ => true
    RemoveDirectoryA := fun _ => true
    MoveFileA := fun _ _ => true
    findFiles := fun _ => []
    readChunks := fun _ => []
    sendBuffer := []
    dataRecv := []
    WriteFile := fun _ bytes => bytes.length }

/-- The permissive world with one file content: every file is read as the single chunk
`41 00 42` into a zeroed buffer of eight bytes. -/
def World.withZeroByteFile : World :=
  { World.permissive with
    readChunks := fun _ => [[0x41, 0x00, 0x42]]
    sendBuffer := [0, 0, 0, 0, 0, 0, 0, 0] }

/-- A session on control socket 4 that is logged in and holds data socket 5. -/
def Session.withData : Session :=
  { _fd := 4, dataFd := 5, pwd := "/".toList, logged_in := true, mode := 'I', rnfr := [] }

/-- A session on control socket 4 that is not logged in and has no data socket. -/
def Session.fresh : Session :=
  { _fd := 4, dataFd := -1, pwd := "/".toList, logged_in := false, mode := 'I', rnfr := [] }

/-- The verbs that are served only after authentication (the comparisons of `update`
inside `else if (logged_in)`). -/
def postAuthVerbs : List Str :=
  ["CWD", "CDUP", "DELE", "LIST", "MDTM", "MKD", "NLST", "PASV", "PORT", "EPRT", "PWD",
    "QUIT", "RETR", "RMD", "RNFR", "RNTO", "SITE", "SIZE", "STOR", "SYST", "TYPE",
    "ABOR"].map String.toList

/-- Every normal end of the run satisfies `P`. -/
def Step.Ends {α : Type} (P : α → Prop) (x : Step α) : Prop :=
  ∀ a, x.result = .ok a → P a

/-- The run of a session over successive reads of the control socket, each with the
answers the collaborators give during it: `update` is applied to one read after the other.
A fault ends the run. -/
def runSession (conf : ftpConfig) : Session → List (World × RecvResult Char) → Step Session
  | s, [] => pure s
  | s, (w, r) :: rest => do
    let next ← update conf w s r
    runSession conf next.2 rest

/-- A working directory that is not empty and has `/` as its first and as its last
character. -/
def pwdWellFormed (pwd : Str) : Prop :=
  pwd ≠ [] ∧ pwd.head? = some '/' ∧ pwd.getLast? = some '/'

/-- A world in which no connection opens (`openConnection` answers -1), no path exists
and every filesystem call fails; the data socket delivers nothing. -/
def World.refusing : World :=
  { openConnection := fun _ _ => -1
    nxIsDriveMounted := fun _ => false
    openExisting := fun _ => false
    createAlways := fun _ => false
    DeleteFile := fun _ => false
    CreateDirectoryA := fun _ => false
    RemoveDirectoryA := fun _ => false
    MoveFileA := fun _ _ => false
    findFiles := fun _ => []
    readChunks := fun _ => []
    sendBuffer := []
    dataRecv := []
    WriteFile := fun _ _ => 0 }

/-- The decimal rendering of a natural number, as a string. -/
def decimal (n : Nat) : Str := (Nat.repr n).toList

/-- The format of a reply on the control channel: three decimal digits, one space, a
message, and the two characters CR LF at the end. -/
def replyWellFormed (reply : Str) : Bool :=
  (reply.take 3).length = 3 && (reply.take 3).all Char.isDigit && charAt reply 3 = ' ' &&
    4 + 2 ≤ reply.length && reply.drop (reply.length - 2) = ['\r', '\n']

/-- The bytes a run has put into files: of every `WriteFile` call, in order, the part of
its bytes that was reported written. -/
def writtenBytes : List Event → List Nat
  | [] => []
  | .WriteFile bytes written :: rest => bytes.take written ++ writtenBytes rest
  | _ :: rest => writtenBytes rest

/-- The permissive world with a data socket that delivers the chunks `01 02` and `03` and
is then closed by the peer. -/
def World.delivering : World :=
  { World.permissive with dataRecv := [.data [1, 2], .data [3], .data []] }

/-- The verbs `update` compares the received verb with, in the order of the comparisons. -/
def commandTable : List Str :=
  ["USER", "PASS", "AUTH", "ABOR", "CWD", "CDUP", "DELE", "LIST", "MDTM", "MKD", "NLST",
    "PASV", "PORT", "EPRT", "PWD", "QUIT", "RETR", "RMD", "RNFR", "RNTO", "SITE", "SIZE",
    "STOR", "SYST", "TYPE"].map String.toList

/-- The calls the loop of `recvFile` makes for the chunks it reads, the first of them being
the `k`-th: a `recv` and a `WriteFile` of the whole chunk for each, with the count the
`k`-th, `k+1`-th, ... write reports. -/
def loopEvents (w : World) (fd : Int) : Nat → List (List Nat) → List Event
  | _, [] => []
  | k, c :: cs => .recv fd :: .WriteFile c (w.WriteFile k c) :: loopEvents w fd (k + 1) cs

/-- Whether each of the chunks, the first of them being the `k`-th, is reported written in
full. -/
def allWritten (w : World) : Nat → List (List Nat) → Bool
  | _, [] => true
  | k, c :: cs => decide (w.WriteFile k c = c.length) && allWritten w (k + 1) cs

/-- Whether the results of the reads begin with an error. -/
def beginsWithError : List (RecvResult Nat) → Bool
  | .error :: _ => true
  | _ => false

/-- The permissive world with a data socket that delivers the chunks `01 02` and `03` and
then no bytes, and a file of which the first write takes one byte only. -/
def World.shortWrite : World :=
  { World.permissive with
    dataRecv := [.data [1, 2], .data [3], .data []]
    WriteFile := fun k bytes => if k = 0 then 1 else bytes.length }

/-- The permissive world with a data socket that delivers the chunk `01 02`, then fails, and
would deliver `03` after that. -/
def World.brokenRead : World :=
  { World.permissive with dataRecv := [.data [1, 2], .error, .data [3], .data []] }

/-- The world `World.delivering` with a filesystem in which the destination file cannot be
created: the data socket delivers the chunks `01 02` and `03` and is then closed by the
peer, and a write would take every byte it is given. -/
def World.uncreatable : World :=
  { World.delivering with createAlways := fun _ => false }

/-! ## Theorems: path translation -/

theorem npos_eq : npos = 4294967295 := by decide

theorem substr_ok_npos (s : Str) (pos : Nat) (h : pos ≤ s.length) :
    substr s pos npos = .ok (s.drop pos) := by
  simp [substr, Nat.not_lt.mpr h]

theorem substr_ok (s : Str) (pos count : Nat) (h : pos ≤ s.length) (hc : count ≠ npos) :
    substr s pos count = .ok ((s.drop pos).take count) := by
  simp [substr, Nat.not_lt.mpr h, hc]

theorem charAt_zero_cons (c : Char) (s : Str) : charAt (c :: s) 0 = c := rfl

theorem charAt_one_cons (c d : Char) (s : Str) : charAt (c :: d :: s) 1 = d := rfl

theorem replace_append (s t : Str) (a b : Char) :
    replace (s ++ t) a b = replace s a b ++ replace t a b := by
  simp [replace]

/-- The value of `unixToDosPath` on a path without a leading double separator. -/
theorem unixToDosPath_single (c d : Char) (rest : Str) (h : ¬ (c = '/' ∧ d = '/')) :
    unixToDosPath (c :: d :: rest) = .ok (replace (d :: ':' :: rest) '/' '\\') := by
  have h0 : ¬ (charAt (c :: d :: rest) 0 = '/' ∧ charAt (c :: d :: rest) 1 = '/') := by
    simpa [charAt_zero_cons, charAt_one_cons] using h
  simp only [unixToDosPath, if_neg h0, bind, Except.bind, pure, Except.pure]
  rw [substr_ok _ 1 1 (by simp) (by decide), substr_ok_npos _ 2 (by simp)]
  simp

/-- The value of `unixToDosPath` on a path with a leading double separator: the letter is
taken from the collapsed path, the tail from the path as given. -/
theorem unixToDosPath_double (rest : Str) :
    unixToDosPath ('/' :: '/' :: rest) =
      .ok (replace ((rest.take 1) ++ ':' :: rest) '/' '\\') := by
  have h0 : charAt ('/' :: '/' :: rest) 0 = '/' ∧ charAt ('/' :: '/' :: rest) 1 = '/' :=
    ⟨rfl, rfl⟩
  simp only [unixToDosPath, if_pos h0, bind, Except.bind]
  rw [substr_ok_npos _ 1 (by simp), substr_ok_npos _ 2 (by simp)]
  simp only [pure, Except.pure, List.drop_succ_cons, List.drop_zero]
  rw [substr_ok _ 1 1 (by simp) (by decide)]
  simp

/-- C7: for a volume letter `L` other than the separator and any `rest`,
`unixToDosPath("/" + L + rest)` is `L`, a colon, and `rest` with every `/` turned into a
backslash. -/
theorem unixToDosPath_volume (L : Char) (rest : Str) (hL : L ≠ '/') :
    unixToDosPath ('/' :: L :: rest) =
      .ok (L :: ':' :: rest.map (fun c => if c = '/' then '\\' else c)) := by
  rw [unixToDosPath_single '/' L rest (fun h => hL h.2)]
  simp [replace, hL]

theorem unixToDosPath_volume_witness :
    'C' ≠ '/' ∧ unixToDosPath "/C/foo/bar".toList = .ok "C:\\foo\\bar".toList :=
  ⟨by decide, unixToDosPath_volume 'C' "/foo/bar".toList (by decide)⟩

/-- C8: on `"//C/foo"` the code returns `C:C\foo`, not the host path `C:\foo` of
`"/C/foo"`: after the collapse the tail is still cut from the path as given. -/
theorem unixToDosPath_double_separator_differs :
    unixToDosPath "//C/foo".toList = .ok "C:C\\foo".toList ∧
    unixToDosPath "/C/foo".toList = .ok "C:\\foo".toList ∧
    unixToDosPath "//C/foo".toList ≠ unixToDosPath "/C/foo".toList := by
  decide

/-- C9: `unixToDosPath` returns a value on every path of at least two characters. -/
theorem unixToDosPath_total (path : Str) (h : 2 ≤ path.length) :
    ∃ r, unixToDosPath path = .ok r := by
  match path, h with
  | c :: d :: rest, _ =>
    by_cases hd : c = '/' ∧ d = '/'
    · obtain ⟨rfl, rfl⟩ := hd
      exact ⟨_, unixToDosPath_double rest⟩
    · exact ⟨_, unixToDosPath_single c d rest hd⟩

theorem unixToDosPath_total_witness :
    2 ≤ "//".toList.length ∧ ∃ r, unixToDosPath "//".toList = .ok r :=
  ⟨by decide, unixToDosPath_total "//".toList (by decide)⟩

/-- A path of fewer than two characters makes `unixToDosPath` throw. -/
theorem unixToDosPath_short (path : Str) (h : path.length < 2) :
    unixToDosPath path = .error .out_of_range := by
  match path, h with
  | [], _ => rfl
  | [c], _ =>
    have h0 : ¬ (charAt [c] 0 = '/' ∧ charAt [c] 1 = '/') := by
      intro h; exact absurd h.2 (by simp [charAt])
    simp only [unixToDosPath, if_neg h0, bind, Except.bind, pure, Except.pure]
    rw [substr_ok _ 1 1 (by simp) (by decide)]
    simp [substr]

/-! ## Theorems: the directory reached by `CWD ..` -/

/-- The position `rfind` returns, read off a splitting of the part of the string it searches. -/
theorem rfind_eq (s : Str) (c : Char) (pos : Nat) (a b : Str)
    (h : s.take (pos + 1) = a ++ c :: b) (hb : c ∉ b) : rfind s c pos = a.length := by
  have hb' : c ∉ b.reverse := by simpa using hb
  simp only [rfind, h]
  rw [if_pos (by simp)]
  rw [List.reverse_append, List.reverse_cons, List.append_assoc,
    List.indexOf_append_of_not_mem hb']
  simp only [List.singleton_append, List.indexOf_cons_self, List.length_reverse,
    List.length_append, List.length_cons]
  omega

theorem sizeSub_one (n : Nat) (h0 : 0 < n) (h : n < 2 ^ sizeBits) : sizeSub n 1 = n - 1 := by
  simp only [sizeSub, sizeBits] at *
  omega

theorem sizeAdd_one (n : Nat) (h : n + 1 < 2 ^ sizeBits) : sizeAdd n 1 = n + 1 := by
  simp only [sizeAdd, sizeBits] at *
  omega

/-- An argument that begins with two dots takes the first branch of `cmdCwd`. -/
theorem dots_prefix (arg : Str) (h : "..".toList <+: arg) :
    charAt arg 0 = '.' ∧ charAt arg 1 = '.' := by
  obtain ⟨t, rfl⟩ := h
  exact ⟨rfl, rfl⟩

/-- C10: from a working directory `pfx + seg + "/"`, where `pfx = q + "/"` ends with a
separator and `seg` is a non-empty segment without separator, an argument that begins with
`..` resolves to exactly `pfx`; from `/` it resolves to `/`.  `CDUP` is `CWD` with the
argument `..`. -/
theorem cwdTarget_parent (q seg arg : Str) (hseg : seg ≠ []) (hsep : '/' ∉ seg)
    (harg : "..".toList <+: arg) (hlen : (q ++ ['/'] ++ seg ++ ['/']).length < npos) :
    cwdTarget (q ++ ['/'] ++ seg ++ ['/']) arg = .ok (q ++ ['/']) ∧
    cwdTarget ['/'] arg = .ok ['/'] ∧
    (∀ (w : World) (s : Session), cmdCdup w s = cmdCwd w s "..".toList) := by
  have hd := dots_prefix arg harg
  have hpos : 0 < seg.length := List.length_pos.mpr hseg
  simp only [List.length_append, List.length_cons, List.length_nil, npos_eq] at hlen
  refine ⟨?_, ?_, fun _ _ => rfl⟩
  · simp only [cwdTarget, if_pos hd]
    have h1 : rfind (q ++ ['/'] ++ seg ++ ['/']) '/' npos = (q ++ ['/'] ++ seg).length := by
      apply rfind_eq _ _ _ (q ++ ['/'] ++ seg) []
      · rw [List.take_of_length_le]
        simp only [List.length_append, List.length_cons, List.length_nil, npos_eq]
        omega
      · simp
    rw [h1]
    have hl : (q ++ ['/'] ++ seg).length = q.length + 1 + seg.length := by
      simp only [List.length_append, List.length_cons, List.length_nil]
    rw [hl, sizeSub_one _ (by omega) (by simp only [sizeBits]; omega)]
    have h2 : rfind (q ++ ['/'] ++ seg ++ ['/']) '/' (q.length + 1 + seg.length - 1)
        = q.length := by
      apply rfind_eq _ _ _ q seg
      · have : q.length + 1 + seg.length - 1 + 1 = (q ++ '/' :: seg).length := by
          simp only [List.length_append, List.length_cons]; omega
        rw [this]
        have e : q ++ ['/'] ++ seg ++ ['/'] = (q ++ '/' :: seg) ++ ['/'] := by simp
        rw [e, List.take_left]
      · exact hsep
    rw [h2, sizeAdd_one _ (by simp only [sizeBits]; omega)]
    rw [substr_ok _ 0 _ (by omega) (by rw [npos_eq]; omega)]
    have e : q ++ ['/'] ++ seg ++ ['/'] = (q ++ ['/']) ++ (seg ++ ['/']) := by simp
    have e2 : q.length + 1 = (q ++ ['/']).length := by simp
    rw [List.drop_zero, e, e2, List.take_left]
  · simp only [cwdTarget, if_pos hd]
    decide

theorem cwdTarget_parent_witness :
    ("/C".toList ++ ['/'] ++ "foo".toList ++ ['/'] = "/C/foo/".toList) ∧
    cwdTarget "/C/foo/".toList "..".toList = .ok "/C/".toList ∧
    cwdTarget "/C/".toList "..".toList = .ok "/".toList ∧
    cwdTarget "/".toList "..".toList = .ok "/".toList :=
  ⟨by decide,
   (cwdTarget_parent "/C".toList "foo".toList "..".toList (by decide) (by decide)
      (by decide) (by decide)).1,
   (cwdTarget_parent [] "C".toList "..".toList (by decide) (by decide)
      (by decide) (by decide)).1,
   (cwdTarget_parent [] "C".toList "..".toList (by decide) (by decide)
      (by decide) (by decide)).2.1⟩

/-! ## Theorems: how handlers end -/

theorem Step.ends_pure {α : Type} (P : α → Prop) (a : α) (h : P a) :
    Step.Ends P (pure a : Step α) := by
  intro b hb
  cases hb
  exact h

theorem Step.ends_bind {α β : Type} (P : β → Prop) (x : Step α) (f : α → Step β)
    (h : ∀ a, Step.Ends P (f a)) : Step.Ends P (x >>= f) := by
  intro b hb
  obtain ⟨evs, r⟩ := x
  cases r with
  | error e => cases hb
  | ok a => exact h a b hb

theorem Step.ends_ite {α : Type} (P : α → Prop) (c : Prop) [Decidable c] (x y : Step α)
    (hx : c → Step.Ends P x) (hy : ¬ c → Step.Ends P y) :
    Step.Ends P (if c then x else y) := by
  split
  · exact hx ‹_›
  · exact hy ‹_›

theorem cmdUnimplemented_logged_in (s : Session) (arg : Str) :
    Step.Ends (fun s' => s'.logged_in = s.logged_in) (cmdUnimplemented s arg) := by
  unfold cmdUnimplemented
  repeat (first
    | dsimp only
    | refine Step.ends_ite _ _ _ _ (fun _ => ?_) (fun _ => ?_)
    | refine Step.ends_bind _ _ _ (fun _ => ?_)
    | exact Step.ends_pure _ _ rfl)

theorem cmdUser_logged_in (conf : ftpConfig) (s : Session) (arg : Str) :
    Step.Ends (fun s' => s'.logged_in = s.logged_in) (cmdUser conf s arg) := by
  unfold cmdUser
  repeat (first
    | dsimp only
    | refine Step.ends_ite _ _ _ _ (fun _ => ?_) (fun _ => ?_)
    | refine Step.ends_bind _ _ _ (fun _ => ?_)
    | exact Step.ends_pure _ _ rfl)

theorem cmdPwd_logged_in (s : Session) :
    Step.Ends (fun s' => s'.logged_in = s.logged_in) (cmdPwd s) := by
  unfold cmdPwd
  repeat (first
    | dsimp only
    | refine Step.ends_ite _ _ _ _ (fun _ => ?_) (fun _ => ?_)
    | refine Step.ends_bind _ _ _ (fun _ => ?_)
    | exact Step.ends_pure _ _ rfl)

theorem cmdType_logged_in (s : Session) (arg : Str) :
    Step.Ends (fun s' => s'.logged_in = s.logged_in) (cmdType s arg) := by
  unfold cmdType
  repeat (first
    | dsimp only
    | refine Step.ends_ite _ _ _ _ (fun _ => ?_) (fun _ => ?_)
    | refine Step.ends_bind _ _ _ (fun _ => ?_)
    | exact Step.ends_pure _ _ rfl)

theorem cmdCwd_logged_in (w : World) (s : Session) (arg : Str) :
    Step.Ends (fun s' => s'.logged_in = s.logged_in) (cmdCwd w s arg) := by
  unfold cmdCwd
  repeat (first
    | dsimp only
    | refine Step.ends_ite _ _ _ _ (fun _ => ?_) (fun _ => ?_)
    | refine Step.ends_bind _ _ _ (fun _ => ?_)
    | exact Step.ends_pure _ _ rfl)

theorem cmdDele_logged_in (w : World) (s : Session) (arg : Str) :
    Step.Ends (fun s' => s'.logged_in = s.logged_in) (cmdDele w s arg) := by
  unfold cmdDele
  repeat (first
    | dsimp only
    | refine Step.ends_ite _ _ _ _ (fun _ => ?_) (fun _ => ?_)
    | refine Step.ends_bind _ _ _ (fun _ => ?_)
    | exact Step.ends_pure _ _ rfl)

theorem cmdSyst_logged_in (s : Session) :
    Step.Ends (fun s' => s'.logged_in = s.logged_in) (cmdSyst s) := by
  unfold cmdSyst
  repeat (first
    | dsimp only
    | refine Step.ends_ite _ _ _ _ (fun _ => ?_) (fun _ => ?_)
    | refine Step.ends_bind _ _ _ (fun _ => ?_)
    | exact Step.ends_pure _ _ rfl)

theorem cmdPort_logged_in (w : World) (s : Session) (arg : Str) :
    Step.Ends (fun s' => s'.logged_in = s.logged_in) (cmdPort w s arg) := by
  unfold cmdPort
  generalize portTarget arg = target
  repeat (first
    | dsimp only
    | refine Step.ends_ite _ _ _ _ (fun _ => ?_) (fun _ => ?_)
    | refine Step.ends_bind _ _ _ (fun _ => ?_)
    | exact Step.ends_pure _ _ rfl)

theorem cmdMkd_logged_in (w : World) (s : Session) (arg : Str) :
    Step.Ends (fun s' => s'.logged_in = s.logged_in) (cmdMkd w s arg) := by
  unfold cmdMkd
  repeat (first
    | dsimp only
    | refine Step.ends_ite _ _ _ _ (fun _ => ?_) (fun _ => ?_)
    | refine Step.ends_bind _ _ _ (fun _ => ?_)
    | exact Step.ends_pure _ _ rfl)

theorem cmdRmd_logged_in (w : World) (s : Session) (arg : Str) :
    Step.Ends (fun s' => s'.logged_in = s.logged_in) (cmdRmd w s arg) := by
  unfold cmdRmd
  repeat (first
    | dsimp only
    | refine Step.ends_ite _ _ _ _ (fun _ => ?_) (fun _ => ?_)
    | refine Step.ends_bind _ _ _ (fun _ => ?_)
    | exact Step.ends_pure _ _ rfl)

theorem cmdRnfr_logged_in (s : Session) (arg : Str) :
    Step.Ends (fun s' => s'.logged_in = s.logged_in) (cmdRnfr s arg) := by
  unfold cmdRnfr
  repeat (first
    | dsimp only
    | refine Step.ends_ite _ _ _ _ (fun _ => ?_) (fun _ => ?_)
    | refine Step.ends_bind _ _ _ (fun _ => ?_)
    | exact Step.ends_pure _ _ rfl)

theorem cmdRnto_logged_in (w : World) (s : Session) (arg : Str) :
    Step.Ends (fun s' => s'.logged_in = s.logged_in) (cmdRnto w s arg) := by
  unfold cmdRnto
  repeat (first
    | dsimp only
    | refine Step.ends_ite _ _ _ _ (fun _ => ?_) (fun _ => ?_)
    | refine Step.ends_bind _ _ _ (fun _ => ?_)
    | exact Step.ends_pure _ _ rfl)

theorem cmdList_logged_in (w : World) (s : Session) (arg : Str) :
    Step.Ends (fun s' => s'.logged_in = s.logged_in) (cmdList w s arg) := by
  unfold cmdList
  repeat (first
    | dsimp only
    | refine Step.ends_ite _ _ _ _ (fun _ => ?_) (fun _ => ?_)
    | refine Step.ends_bind _ _ _ (fun _ => ?_)
    | exact Step.ends_pure _ _ rfl)

theorem cmdNlst_logged_in (w : World) (s : Session) (arg : Str) :
    Step.Ends (fun s' => s'.logged_in = s.logged_in) (cmdNlst w s arg) := by
  unfold cmdNlst
  repeat (first
    | dsimp only
    | refine Step.ends_ite _ _ _ _ (fun _ => ?_) (fun _ => ?_)
    | refine Step.ends_bind _ _ _ (fun _ => ?_)
    | exact Step.ends_pure _ _ rfl)

theorem cmdEprt_logged_in (w : World) (s : Session) (arg : Str) :
    Step.Ends (fun s' => s'.logged_in = s.logged_in) (cmdEprt w s arg) := by
  unfold cmdEprt
  generalize eprtFamily arg = family
  generalize eprtTarget arg = target
  repeat (first
    | dsimp only
    | refine Step.ends_ite _ _ _ _ (fun _ => ?_) (fun _ => ?_)
    | refine Step.ends_bind _ _ _ (fun _ => ?_)
    | exact Step.ends_pure _ _ rfl)

theorem cmdRetr_logged_in (w : World) (s : Session) (arg : Str) :
    Step.Ends (fun s' => s'.logged_in = s.logged_in) (cmdRetr w s arg) := by
  unfold cmdRetr
  repeat (first
    | dsimp only
    | refine Step.ends_ite _ _ _ _ (fun _ => ?_) (fun _ => ?_)
    | refine Step.ends_bind _ _ _ (fun _ => ?_)
    | exact Step.ends_pure _ _ rfl)

theorem cmdStor_logged_in (w : World) (s : Session) (arg : Str) :
    Step.Ends (fun s' => s'.logged_in = s.logged_in) (cmdStor w s arg) := by
  unfold cmdStor
  repeat (first
    | dsimp only
    | refine Step.ends_ite _ _ _ _ (fun _ => ?_) (fun _ => ?_)
    | refine Step.ends_bind _ _ _ (fun _ => ?_)
    | exact Step.ends_pure _ _ rfl)

/-- A normal end of `cmdList` leaves every field of the session as it was. -/
theorem cmdList_keeps (w : World) (s : Session) (arg : Str) :
    Step.Ends (fun s' => s' = s) (cmdList w s arg) := by
  unfold cmdList
  repeat (first
    | dsimp only
    | refine Step.ends_ite _ _ _ _ (fun _ => ?_) (fun _ => ?_)
    | refine Step.ends_bind _ _ _ (fun _ => ?_)
    | exact Step.ends_pure _ _ rfl)

/-- A normal end of `cmdNlst` leaves every field of the session as it was. -/
theorem cmdNlst_keeps (w : World) (s : Session) (arg : Str) :
    Step.Ends (fun s' => s' = s) (cmdNlst w s arg) := by
  unfold cmdNlst
  repeat (first
    | dsimp only
    | refine Step.ends_ite _ _ _ _ (fun _ => ?_) (fun _ => ?_)
    | refine Step.ends_bind _ _ _ (fun _ => ?_)
    | exact Step.ends_pure _ _ rfl)

/-- A normal end of `cmdRetr` leaves every field of the session as it was. -/
theorem cmdRetr_keeps (w : World) (s : Session) (arg : Str) :
    Step.Ends (fun s' => s' = s) (cmdRetr w s arg) := by
  unfold cmdRetr
  repeat (first
    | dsimp only
    | refine Step.ends_ite _ _ _ _ (fun _ => ?_) (fun _ => ?_)
    | refine Step.ends_bind _ _ _ (fun _ => ?_)
    | exact Step.ends_pure _ _ rfl)

/-- A normal end of `cmdStor` leaves every field of the session as it was. -/
theorem cmdStor_keeps (w : World) (s : Session) (arg : Str) :
    Step.Ends (fun s' => s' = s) (cmdStor w s arg) := by
  unfold cmdStor
  repeat (first
    | dsimp only
    | refine Step.ends_ite _ _ _ _ (fun _ => ?_) (fun _ => ?_)
    | refine Step.ends_bind _ _ _ (fun _ => ?_)
    | exact Step.ends_pure _ _ rfl)

/-- Apart from a `PASS` with the configured password, a verb ends with `logged_in`
as it was. -/
theorem dispatch_logged_in (conf : ftpConfig) (w : World) (s : Session) (cmd arg : Str)
    (h : ¬ (cmd = "PASS".toList ∧ arg = conf.password)) :
    Step.Ends (fun s' => s'.logged_in = s.logged_in) (dispatch conf w s cmd arg) := by
  unfold dispatch
  refine Step.ends_ite _ _ _ _ (fun _ => cmdUser_logged_in conf s arg) (fun _ => ?_)
  refine Step.ends_ite _ _ _ _ (fun hc => ?_) (fun _ => ?_)
  · have hp : ¬ arg = conf.password := fun ha => h ⟨hc, ha⟩
    simp only [cmdPass, if_neg hp]
    exact Step.ends_bind _ _ _ (fun _ => Step.ends_pure _ _ rfl)
  refine Step.ends_ite _ _ _ _ (fun _ => cmdUnimplemented_logged_in s cmd) (fun _ => ?_)
  refine Step.ends_ite _ _ _ _ (fun _ => ?_)
    (fun _ => Step.ends_bind _ _ _ (fun _ => Step.ends_pure _ _ rfl))
  refine Step.ends_ite _ _ _ _ (fun _ => cmdUnimplemented_logged_in s cmd) (fun _ => ?_)
  refine Step.ends_ite _ _ _ _ (fun _ => cmdCwd_logged_in w s arg) (fun _ => ?_)
  refine Step.ends_ite _ _ _ _ (fun _ => cmdCwd_logged_in w s _) (fun _ => ?_)
  refine Step.ends_ite _ _ _ _ (fun _ => cmdDele_logged_in w s arg) (fun _ => ?_)
  refine Step.ends_ite _ _ _ _ (fun _ => cmdList_logged_in w s arg) (fun _ => ?_)
  refine Step.ends_ite _ _ _ _ (fun _ => cmdUnimplemented_logged_in s cmd) (fun _ => ?_)
  refine Step.ends_ite _ _ _ _ (fun _ => cmdMkd_logged_in w s arg) (fun _ => ?_)
  refine Step.ends_ite _ _ _ _ (fun _ => cmdNlst_logged_in w s arg) (fun _ => ?_)
  refine Step.ends_ite _ _ _ _ (fun _ => cmdUnimplemented_logged_in s cmd) (fun _ => ?_)
  refine Step.ends_ite _ _ _ _ (fun _ => cmdPort_logged_in w s arg) (fun _ => ?_)
  refine Step.ends_ite _ _ _ _ (fun _ => cmdEprt_logged_in w s arg) (fun _ => ?_)
  refine Step.ends_ite _ _ _ _ (fun _ => cmdPwd_logged_in s) (fun _ => ?_)
  refine Step.ends_ite _ _ _ _ (fun _ => cmdUnimplemented_logged_in s cmd) (fun _ => ?_)
  refine Step.ends_ite _ _ _ _ (fun _ => cmdRetr_logged_in w s arg) (fun _ => ?_)
  refine Step.ends_ite _ _ _ _ (fun _ => cmdRmd_logged_in w s arg) (fun _ => ?_)
  refine Step.ends_ite _ _ _ _ (fun _ => cmdRnfr_logged_in s arg) (fun _ => ?_)
  refine Step.ends_ite _ _ _ _ (fun _ => cmdRnto_logged_in w s arg) (fun _ => ?_)
  refine Step.ends_ite _ _ _ _ (fun _ => cmdUnimplemented_logged_in s cmd) (fun _ => ?_)
  refine Step.ends_ite _ _ _ _ (fun _ => cmdUnimplemented_logged_in s cmd) (fun _ => ?_)
  refine Step.ends_ite _ _ _ _ (fun _ => cmdStor_logged_in w s arg) (fun _ => ?_)
  refine Step.ends_ite _ _ _ _ (fun _ => cmdSyst_logged_in s) (fun _ => ?_)
  refine Step.ends_ite _ _ _ _ (fun _ => cmdType_logged_in s arg) (fun _ => ?_)
  exact cmdUnimplemented_logged_in s cmd

/-! ## Theorems: authentication -/

/-- The result of a sequence is the result of its second part, when the first part ends
normally. -/
theorem Step.result_bind {α β : Type} (x : Step α) (f : α → Step β) :
    (x >>= f).result = x.result >>= fun a => (f a).result := by
  obtain ⟨evs, r⟩ := x
  cases r <;> rfl

theorem parseCommand_nil : parseCommand (c_str []) = .ok ([], " ".toList) := by decide

/-- On received bytes that leave room for the terminating zero and parse, `update` runs the
dispatcher and answers `true`. -/
theorem update_data (conf : ftpConfig) (w : World) (s : Session) (bytes cmd arg : Str)
    (hne : bytes ≠ []) (hfit : bytes.length < k_ftp_cmd_buffer_size)
    (h : parseCommand (c_str bytes) = .ok (cmd, arg)) :
    update conf w s (.data bytes) =
      (dispatch conf w s cmd arg >>= fun s' => pure (true, s')) := by
  have hlen : ¬ ((bytes.length : Int) ≤ 0) := by
    have := List.length_pos.mpr hne
    omega
  simp only [update, if_neg hlen, if_neg (Nat.not_le.mpr hfit), h, liftE]
  rfl

/-- On received bytes that fill the command buffer `update` writes the terminating zero
behind the buffer: nothing is parsed and nothing is sent. -/
theorem update_full (conf : ftpConfig) (w : World) (s : Session) (bytes : Str)
    (hfull : k_ftp_cmd_buffer_size ≤ bytes.length) :
    update conf w s (.data bytes) = ⟨[], .error .out_of_bounds⟩ := by
  have hlen : ¬ ((bytes.length : Int) ≤ 0) := by
    unfold k_ftp_cmd_buffer_size at hfull
    omega
  simp only [update, if_neg hlen, if_pos hfull, liftE]

/-- Received bytes whose verb is not empty are not empty. -/
theorem bytes_ne_nil (bytes cmd arg : Str) (h : parseCommand (c_str bytes) = .ok (cmd, arg))
    (hc : cmd ≠ []) : bytes ≠ [] := by
  rintro rfl
  rw [parseCommand_nil] at h
  simp only [Except.ok.injEq, Prod.mk.injEq] at h
  exact hc h.1.symm

/-- What the dispatcher does with the verb `PASS`, in every session and for every
argument. -/
theorem dispatch_PASS (conf : ftpConfig) (w : World) (s : Session) (arg : Str) :
    dispatch conf w s "PASS".toList arg =
      if arg = conf.password then
        ⟨[.send s._fd k_reply_user_logged_in], .ok { s with logged_in := true }⟩
      else
        ⟨[.send s._fd "530 login authentication failed.\r\n".toList], .ok s⟩ := by
  have hd : dispatch conf w s "PASS".toList arg = cmdPass conf s arg := by
    simp [dispatch]
  rw [hd]
  by_cases hp : arg = conf.password
  · simp only [cmdPass, if_pos hp]; rfl
  · simp only [cmdPass, if_neg hp]; rfl

/-- What `update` does with a `PASS` line that is shorter than the command buffer. -/
theorem update_PASS (conf : ftpConfig) (w : World) (s : Session) (bytes arg : Str)
    (hfit : bytes.length < k_ftp_cmd_buffer_size)
    (h : parseCommand (c_str bytes) = .ok ("PASS".toList, arg)) :
    update conf w s (.data bytes) =
      if arg = conf.password then
        ⟨[.send s._fd k_reply_user_logged_in], .ok (true, { s with logged_in := true })⟩
      else
        ⟨[.send s._fd "530 login authentication failed.\r\n".toList], .ok (true, s)⟩ := by
  rw [update_data conf w s bytes _ arg (bytes_ne_nil bytes _ arg h (by decide)) hfit h,
    dispatch_PASS]
  by_cases hp : arg = conf.password
  · simp only [if_pos hp]; rfl
  · simp only [if_neg hp]; rfl

/-- C3: a session starts with `logged_in` false, and after any call of `update` that ends
normally `logged_in` is true exactly when it was true before or the received line was a
`PASS` whose argument equals the configured password: no other command sets it, and
nothing clears it. -/
theorem logged_in_changes_only_by_pass (conf : ftpConfig) (w : World) (s s' : Session)
    (r : RecvResult Char) (b : Bool) (h : (update conf w s r).result = .ok (b, s')) :
    (∀ fd uninitialised, ∃ s₀, (ftpConnection fd uninitialised).result = .ok s₀ ∧
      s₀.logged_in = false) ∧
    (s'.logged_in = true ↔
      s.logged_in = true ∨
        ∃ bytes arg, r = .data bytes ∧
          parseCommand (c_str bytes) = .ok ("PASS".toList, arg) ∧ arg = conf.password) := by
  refine ⟨fun fd g => ⟨_, rfl, rfl⟩, ?_⟩
  cases r with
  | error =>
    simp only [update] at h
    cases h
    simp
  | data bytes =>
    by_cases hlen : (bytes.length : Int) ≤ 0
    · simp only [update, if_pos hlen] at h
      cases h
      have hb : bytes = [] := by
        cases bytes with
        | nil => rfl
        | cons c t => simp only [List.length_cons] at hlen; omega
      subst hb
      simp [parseCommand_nil]
    · have hne : bytes ≠ [] := by
        rintro rfl
        exact hlen (by simp)
      have hfit : bytes.length < k_ftp_cmd_buffer_size := by
        by_contra hfull
        rw [update_full conf w s bytes (Nat.not_lt.mp hfull)] at h
        cases h
      cases hp : parseCommand (c_str bytes) with
      | error e =>
        simp only [update, if_neg hlen, if_neg (Nat.not_le.mpr hfit), hp, liftE] at h
        cases h
      | ok ca =>
        obtain ⟨cmd, arg⟩ := ca
        rw [update_data conf w s bytes cmd arg hne hfit hp, Step.result_bind] at h
        cases hd : (dispatch conf w s cmd arg).result with
        | error e =>
          rw [hd] at h
          cases h
        | ok s₁ =>
          rw [hd] at h
          cases h
          by_cases hpass : cmd = "PASS".toList ∧ arg = conf.password
          · obtain ⟨rfl, hpw⟩ := hpass
            have hu := update_PASS conf w s bytes arg hfit hp
            rw [if_pos hpw, update_data conf w s bytes _ arg hne hfit hp] at hu
            have hr := congrArg Step.result hu
            rw [Step.result_bind, hd] at hr
            cases hr
            simp only [true_iff]
            exact Or.inr ⟨bytes, arg, rfl, hp, hpw⟩
          · have hk := dispatch_logged_in conf w s cmd arg hpass s' hd
            rw [hk]
            constructor
            · exact Or.inl
            · rintro (h1 | ⟨bytes', arg', hb, hp', hpw⟩)
              · exact h1
              · cases hb
                rw [hp] at hp'
                simp only [Except.ok.injEq, Prod.mk.injEq] at hp'
                exact absurd ⟨hp'.1, hp'.2 ▸ hpw⟩ hpass

theorem logged_in_changes_only_by_pass_witness :
    (update ftpConfig.default World.permissive Session.fresh
        (.data "USER xbox\r\n".toList)).result = .ok (true, Session.fresh) ∧
    (Session.fresh.logged_in = true ↔
      Session.fresh.logged_in = true ∨
        ∃ bytes arg, RecvResult.data "USER xbox\r\n".toList = .data bytes ∧
          parseCommand (c_str bytes) = .ok ("PASS".toList, arg) ∧
          arg = ftpConfig.default.password) :=
  ⟨by decide,
   (logged_in_changes_only_by_pass ftpConfig.default World.permissive Session.fresh
      Session.fresh (.data "USER xbox\r\n".toList) true (by decide)).2⟩

/-! ## Theorems: sending a file -/

/-- In mode `I` the bytes handed to `send` are the chunk that was read. -/
theorem sendChunk_binary (chunk rest : List Nat) :
    sendChunk 'I' (chunk ++ rest) chunk.length = .ok chunk := by
  simp [sendChunk]

/-- In mode `A`, for a chunk without zero byte that is followed by a zero byte somewhere in
the buffer, the bytes handed to `send` are the bytes of the chunk, each masked with `0x7F`. -/
theorem sendChunk_ascii_no_zero (chunk rest : List Nat) (hc : 0 ∉ chunk) (hr : 0 ∈ rest) :
    sendChunk 'A' (chunk ++ rest) chunk.length = .ok (chunk.map (fun c => c &&& 0x7F)) := by
  have hm : 0 ∈ chunk ++ rest := List.mem_append_right _ hr
  have ht : (chunk ++ rest).takeWhile (fun b => b != 0)
      = chunk ++ rest.takeWhile (fun b => b != 0) := by
    rw [List.takeWhile_append]
    have hall : chunk.takeWhile (fun b => b != 0) = chunk := by
      rw [List.takeWhile_eq_self_iff]
      intro b hb
      have : b ≠ 0 := fun h0 => hc (h0 ▸ hb)
      simpa using this
    rw [hall, if_pos rfl]
  have hI : ¬ ('A' = 'I') := by decide
  simp only [sendChunk, if_neg hI, cstring, if_pos hm, ht, bind, Except.bind]
  rw [if_pos (by simp only [List.length_append]; omega)]
  rw [List.append_assoc, List.take_left]

/-- C4: in mode `A` a chunk that contains a zero byte is not sent masked byte by byte.
For the chunk `41 00 42` the string `abuf` holds the single byte `41`, so the three bytes
masked and handed to `send` reach past its end; in mode `I` the same chunk is sent as
read. -/
theorem sendFile_ascii_chunk_with_zero :
    cstring [0x41, 0x00, 0x42, 0, 0, 0, 0, 0] = .ok [0x41] ∧
    sendChunk 'A' [0x41, 0x00, 0x42, 0, 0, 0, 0, 0] 3 = .error .out_of_bounds ∧
    sendChunk 'A' [0x41, 0x00, 0x42, 0, 0, 0, 0, 0] 3 ≠
      .ok ([0x41, 0x00, 0x42].map (fun c => c &&& 0x7F)) ∧
    sendFile World.withZeroByteFile { Session.withData with mode := 'A' } "/C/f".toList =
      ⟨[.CreateFile "C:\\f".toList false, .ReadFile], .error .out_of_bounds⟩ ∧
    sendFile World.withZeroByteFile { Session.withData with mode := 'I' } "/C/f".toList =
      ⟨[.CreateFile "C:\\f".toList false, .ReadFile, .sendData 5 [0x41, 0x00, 0x42],
        .ReadFile, .CloseHandle], .ok true⟩ := by
  decide

/-! ## Theorems: the data socket -/

/-- C5: after `LIST`, `NLST`, `RETR` and `STOR` the socket has been closed once, but
`dataFd` still holds its number (here 5, not -1): the commands end in the session they
started from, so a second `LIST` runs again on the closed socket. -/
theorem transfer_leaves_dataFd :
    (∀ line ∈ ["LIST\r\n", "NLST\r\n", "RETR /C/f\r\n", "STOR /C/f\r\n"],
      (update ftpConfig.default World.permissive Session.withData
          (.data line.toList)).result = .ok (true, Session.withData) ∧
      (update ftpConfig.default World.permissive Session.withData
          (.data line.toList)).events.count (.close 5) = 1) ∧
    Session.withData.dataFd = 5 ∧
    Event.send 5 "drwxr-xr-x 1 XBOX XBOX 0 2020-03-02 10:41 C\r\n".toList ∈
      (update ftpConfig.default World.permissive Session.withData
          (.data "LIST\r\n".toList)).events := by
  decide

/-- With `dataFd` equal to -1 the four transfer commands make no call and leave the
session as it is. -/
theorem transfer_without_dataFd (w : World) (s : Session) (arg : Str) (h : s.dataFd = -1) :
    cmdList w s arg = ⟨[], .ok s⟩ ∧ cmdNlst w s arg = ⟨[], .ok s⟩ ∧
    cmdRetr w s arg = ⟨[], .ok s⟩ ∧ cmdStor w s arg = ⟨[], .ok s⟩ := by
  have hn : ¬ (s.dataFd ≠ -1) := fun hc => hc h
  refine ⟨?_, ?_, ?_, ?_⟩
  · simp only [cmdList, if_neg hn]; rfl
  · simp only [cmdNlst, if_neg hn]; rfl
  · simp only [cmdRetr, if_neg hn]; rfl
  · simp only [cmdStor, if_neg hn]; rfl

/-- C6: the constructor leaves `dataFd` as it finds it.  When the field happens to hold 0,
a `LIST` sent right after the login, with no `PORT` or `EPRT` before it, replies `150`,
writes the listing to socket 0, closes it and replies `226`. -/
theorem list_without_port_not_silent :
    (ftpConnection 4 0).result =
      .ok { _fd := 4, dataFd := 0, pwd := "/".toList, logged_in := false, mode := 'I',
            rnfr := [] } ∧
    (update ftpConfig.default World.permissive
        { _fd := 4, dataFd := 0, pwd := "/".toList, logged_in := false, mode := 'I',
          rnfr := [] } (.data "PASS xbox\r\n".toList)).result =
      .ok (true, { _fd := 4, dataFd := 0, pwd := "/".toList, logged_in := true,
                   mode := 'I', rnfr := [] }) ∧
    (update ftpConfig.default { World.permissive with nxIsDriveMounted := fun c => c = 'C' }
        { _fd := 4, dataFd := 0, pwd := "/".toList, logged_in := true, mode := 'I',
          rnfr := [] } (.data "LIST\r\n".toList)).events =
      [.send 4 "150 Opening ASCII data connection for ls\r\n".toList,
       .nxIsDriveMounted 'C',
       .send 0 "drwxr-xr-x 1 XBOX XBOX 0 2020-03-02 10:41 C\r\n".toList,
       .nxIsDriveMounted 'D', .nxIsDriveMounted 'E', .nxIsDriveMounted 'F',
       .nxIsDriveMounted 'G', .nxIsDriveMounted 'X', .nxIsDriveMounted 'Y',
       .nxIsDriveMounted 'Z',
       .close 0,
       .send 4 "226 Data transfer finished successfully. Data connection closed.\r\n".toList]
    := by
  decide

/-! ## Theorems: fields a command leaves alone -/

theorem Step.ends_mono {α : Type} (P Q : α → Prop) (x : Step α) (h : ∀ a, P a → Q a)
    (hx : Step.Ends P x) : Step.Ends Q x :=
  fun a ha => h a (hx a ha)

theorem cmdUnimplemented_pwd_mode (s : Session) (arg : Str) :
    Step.Ends (fun s' => s'.pwd = s.pwd ∧ s'.mode = s.mode) (cmdUnimplemented s arg) := by
  unfold cmdUnimplemented
  repeat (first
    | dsimp only
    | refine Step.ends_ite _ _ _ _ (fun _ => ?_) (fun _ => ?_)
    | refine Step.ends_bind _ _ _ (fun _ => ?_)
    | exact Step.ends_pure _ _ ⟨rfl, rfl⟩)

theorem cmdUser_pwd_mode (conf : ftpConfig) (s : Session) (arg : Str) :
    Step.Ends (fun s' => s'.pwd = s.pwd ∧ s'.mode = s.mode) (cmdUser conf s arg) := by
  unfold cmdUser
  repeat (first
    | dsimp only
    | refine Step.ends_ite _ _ _ _ (fun _ => ?_) (fun _ => ?_)
    | refine Step.ends_bind _ _ _ (fun _ => ?_)
    | exact Step.ends_pure _ _ ⟨rfl, rfl⟩)

theorem cmdPass_pwd_mode (conf : ftpConfig) (s : Session) (arg : Str) :
    Step.Ends (fun s' => s'.pwd = s.pwd ∧ s'.mode = s.mode) (cmdPass conf s arg) := by
  unfold cmdPass
  repeat (first
    | dsimp only
    | refine Step.ends_ite _ _ _ _ (fun _ => ?_) (fun _ => ?_)
    | refine Step.ends_bind _ _ _ (fun _ => ?_)
    | exact Step.ends_pure _ _ ⟨rfl, rfl⟩)

theorem cmdPwd_pwd_mode (s : Session) :
    Step.Ends (fun s' => s'.pwd = s.pwd ∧ s'.mode = s.mode) (cmdPwd s) := by
  unfold cmdPwd
  repeat (first
    | dsimp only
    | refine Step.ends_ite _ _ _ _ (fun _ => ?_) (fun _ => ?_)
    | refine Step.ends_bind _ _ _ (fun _ => ?_)
    | exact Step.ends_pure _ _ ⟨rfl, rfl⟩)

theorem cmdDele_pwd_mode (w : World) (s : Session) (arg : Str) :
    Step.Ends (fun s' => s'.pwd = s.pwd ∧ s'.mode = s.mode) (cmdDele w s arg) := by
  unfold cmdDele
  repeat (first
    | dsimp only
    | refine Step.ends_ite _ _ _ _ (fun _ => ?_) (fun _ => ?_)
    | refine Step.ends_bind _ _ _ (fun _ => ?_)
    | exact Step.ends_pure _ _ ⟨rfl, rfl⟩)

theorem cmdSyst_pwd_mode (s : Session) :
    Step.Ends (fun s' => s'.pwd = s.pwd ∧ s'.mode = s.mode) (cmdSyst s) := by
  unfold cmdSyst
  repeat (first
    | dsimp only
    | refine Step.ends_ite _ _ _ _ (fun _ => ?_) (fun _ => ?_)
    | refine Step.ends_bind _ _ _ (fun _ => ?_)
    | exact Step.ends_pure _ _ ⟨rfl, rfl⟩)

theorem cmdPort_pwd_mode (w : World) (s : Session) (arg : Str) :
    Step.Ends (fun s' => s'.pwd = s.pwd ∧ s'.mode = s.mode) (cmdPort w s arg) := by
  unfold cmdPort
  generalize portTarget arg = target
  repeat (first
    | dsimp only
    | refine Step.ends_ite _ _ _ _ (fun _ => ?_) (fun _ => ?_)
    | refine Step.ends_bind _ _ _ (fun _ => ?_)
    | exact Step.ends_pure _ _ ⟨rfl, rfl⟩)

theorem cmdMkd_pwd_mode (w : World) (s : Session) (arg : Str) :
    Step.Ends (fun s' => s'.pwd = s.pwd ∧ s'.mode = s.mode) (cmdMkd w s arg) := by
  unfold cmdMkd
  repeat (first
    | dsimp only
    | refine Step.ends_ite _ _ _ _ (fun _ => ?_) (fun _ => ?_)
    | refine Step.ends_bind _ _ _ (fun _ => ?_)
    | exact Step.ends_pure _ _ ⟨rfl, rfl⟩)

theorem cmdRmd_pwd_mode (w : World) (s : Session) (arg : Str) :
    Step.Ends (fun s' => s'.pwd = s.pwd ∧ s'.mode = s.mode) (cmdRmd w s arg) := by
  unfold cmdRmd
  repeat (first
    | dsimp only
    | refine Step.ends_ite _ _ _ _ (fun _ => ?_) (fun _ => ?_)
    | refine Step.ends_bind _ _ _ (fun _ => ?_)
    | exact Step.ends_pure _ _ ⟨rfl, rfl⟩)

theorem cmdRnfr_pwd_mode (s : Session) (arg : Str) :
    Step.Ends (fun s' => s'.pwd = s.pwd ∧ s'.mode = s.mode) (cmdRnfr s arg) := by
  unfold cmdRnfr
  repeat (first
    | dsimp only
    | refine Step.ends_ite _ _ _ _ (fun _ => ?_) (fun _ => ?_)
    | refine Step.ends_bind _ _ _ (fun _ => ?_)
    | exact Step.ends_pure _ _ ⟨rfl, rfl⟩)

theorem cmdRnto_pwd_mode (w : World) (s : Session) (arg : Str) :
    Step.Ends (fun s' => s'.pwd = s.pwd ∧ s'.mode = s.mode) (cmdRnto w s arg) := by
  unfold cmdRnto
  repeat (first
    | dsimp only
    | refine Step.ends_ite _ _ _ _ (fun _ => ?_) (fun _ => ?_)
    | refine Step.ends_bind _ _ _ (fun _ => ?_)
    | exact Step.ends_pure _ _ ⟨rfl, rfl⟩)

theorem cmdList_pwd_mode (w : World) (s : Session) (arg : Str) :
    Step.Ends (fun s' => s'.pwd = s.pwd ∧ s'.mode = s.mode) (cmdList w s arg) := by
  unfold cmdList
  repeat (first
    | dsimp only
    | refine Step.ends_ite _ _ _ _ (fun _ => ?_) (fun _ => ?_)
    | refine Step.ends_bind _ _ _ (fun _ => ?_)
    | exact Step.ends_pure _ _ ⟨rfl, rfl⟩)

theorem cmdNlst_pwd_mode (w : World) (s : Session) (arg : Str) :
    Step.Ends (fun s' => s'.pwd = s.pwd ∧ s'.mode = s.mode) (cmdNlst w s arg) := by
  unfold cmdNlst
  repeat (first
    | dsimp only
    | refine Step.ends_ite _ _ _ _ (fun _ => ?_) (fun _ => ?_)
    | refine Step.ends_bind _ _ _ (fun _ => ?_)
    | exact Step.ends_pure _ _ ⟨rfl, rfl⟩)

theorem cmdEprt_pwd_mode (w : World) (s : Session) (arg : Str) :
    Step.Ends (fun s' => s'.pwd = s.pwd ∧ s'.mode = s.mode) (cmdEprt w s arg) := by
  unfold cmdEprt
  generalize eprtFamily arg = family
  generalize eprtTarget arg = target
  repeat (first
    | dsimp only
    | refine Step.ends_ite _ _ _ _ (fun _ => ?_) (fun _ => ?_)
    | refine Step.ends_bind _ _ _ (fun _ => ?_)
    | exact Step.ends_pure _ _ ⟨rfl, rfl⟩)

theorem cmdRetr_pwd_mode (w : World) (s : Session) (arg : Str) :
    Step.Ends (fun s' => s'.pwd = s.pwd ∧ s'.mode = s.mode) (cmdRetr w s arg) := by
  unfold cmdRetr
  repeat (first
    | dsimp only
    | refine Step.ends_ite _ _ _ _ (fun _ => ?_) (fun _ => ?_)
    | refine Step.ends_bind _ _ _ (fun _ => ?_)
    | exact Step.ends_pure _ _ ⟨rfl, rfl⟩)

theorem cmdStor_pwd_mode (w : World) (s : Session) (arg : Str) :
    Step.Ends (fun s' => s'.pwd = s.pwd ∧ s'.mode = s.mode) (cmdStor w s arg) := by
  unfold cmdStor
  repeat (first
    | dsimp only
    | refine Step.ends_ite _ _ _ _ (fun _ => ?_) (fun _ => ?_)
    | refine Step.ends_bind _ _ _ (fun _ => ?_)
    | exact Step.ends_pure _ _ ⟨rfl, rfl⟩)

theorem cmdCwd_mode (w : World) (s : Session) (arg : Str) :
    Step.Ends (fun s' => s'.mode = s.mode) (cmdCwd w s arg) := by
  unfold cmdCwd
  repeat (first
    | dsimp only
    | refine Step.ends_ite _ _ _ _ (fun _ => ?_) (fun _ => ?_)
    | refine Step.ends_bind _ _ _ (fun _ => ?_)
    | exact Step.ends_pure _ _ rfl)

theorem cmdType_pwd (s : Session) (arg : Str) :
    Step.Ends (fun s' => s'.pwd = s.pwd) (cmdType s arg) := by
  unfold cmdType
  repeat (first
    | dsimp only
    | refine Step.ends_ite _ _ _ _ (fun _ => ?_) (fun _ => ?_)
    | refine Step.ends_bind _ _ _ (fun _ => ?_)
    | exact Step.ends_pure _ _ rfl)

/-- Sequencing, with what is known of the end of the first part. -/
theorem Step.ends_seq {α β : Type} (Q : α → Prop) (P : β → Prop) (x : Step α)
    (f : α → Step β) (hx : Step.Ends Q x) (h : ∀ a, Q a → Step.Ends P (f a)) :
    Step.Ends P (x >>= f) := by
  intro b hb
  obtain ⟨evs, r⟩ := x
  cases r with
  | error e => cases hb
  | ok a => exact h a (hx a rfl) b hb

/-- A property of the session that `CWD`, `CDUP` and `TYPE` maintain, and that depends on
the working directory and the transfer mode only, holds after every verb. -/
theorem dispatch_maintains (I : Session → Prop) (conf : ftpConfig) (w : World) (s : Session)
    (cmd arg : Str) (hframe : ∀ s' : Session, s'.pwd = s.pwd ∧ s'.mode = s.mode → I s')
    (hcwd : ∀ a, Step.Ends I (cmdCwd w s a)) (htype : ∀ a, Step.Ends I (cmdType s a)) :
    Step.Ends I (dispatch conf w s cmd arg) := by
  have hk : ∀ x : Step Session,
      Step.Ends (fun s' => s'.pwd = s.pwd ∧ s'.mode = s.mode) x → Step.Ends I x :=
    fun x hx => Step.ends_mono _ _ x hframe hx
  unfold dispatch
  refine Step.ends_ite _ _ _ _ (fun _ => hk _ (cmdUser_pwd_mode conf s arg)) (fun _ => ?_)
  refine Step.ends_ite _ _ _ _ (fun _ => hk _ (cmdPass_pwd_mode conf s arg)) (fun _ => ?_)
  refine Step.ends_ite _ _ _ _ (fun _ => hk _ (cmdUnimplemented_pwd_mode s cmd)) (fun _ => ?_)
  refine Step.ends_ite _ _ _ _ (fun _ => ?_)
    (fun _ => Step.ends_bind _ _ _ (fun _ => Step.ends_pure _ _ (hframe s ⟨rfl, rfl⟩)))
  refine Step.ends_ite _ _ _ _ (fun _ => hk _ (cmdUnimplemented_pwd_mode s cmd)) (fun _ => ?_)
  refine Step.ends_ite _ _ _ _ (fun _ => hcwd arg) (fun _ => ?_)
  refine Step.ends_ite _ _ _ _ (fun _ => hcwd _) (fun _ => ?_)
  refine Step.ends_ite _ _ _ _ (fun _ => hk _ (cmdDele_pwd_mode w s arg)) (fun _ => ?_)
  refine Step.ends_ite _ _ _ _ (fun _ => hk _ (cmdList_pwd_mode w s arg)) (fun _ => ?_)
  refine Step.ends_ite _ _ _ _ (fun _ => hk _ (cmdUnimplemented_pwd_mode s cmd)) (fun _ => ?_)
  refine Step.ends_ite _ _ _ _ (fun _ => hk _ (cmdMkd_pwd_mode w s arg)) (fun _ => ?_)
  refine Step.ends_ite _ _ _ _ (fun _ => hk _ (cmdNlst_pwd_mode w s arg)) (fun _ => ?_)
  refine Step.ends_ite _ _ _ _ (fun _ => hk _ (cmdUnimplemented_pwd_mode s cmd)) (fun _ => ?_)
  refine Step.ends_ite _ _ _ _ (fun _ => hk _ (cmdPort_pwd_mode w s arg)) (fun _ => ?_)
  refine Step.ends_ite _ _ _ _ (fun _ => hk _ (cmdEprt_pwd_mode w s arg)) (fun _ => ?_)
  refine Step.ends_ite _ _ _ _ (fun _ => hk _ (cmdPwd_pwd_mode s)) (fun _ => ?_)
  refine Step.ends_ite _ _ _ _ (fun _ => hk _ (cmdUnimplemented_pwd_mode s cmd)) (fun _ => ?_)
  refine Step.ends_ite _ _ _ _ (fun _ => hk _ (cmdRetr_pwd_mode w s arg)) (fun _ => ?_)
  refine Step.ends_ite _ _ _ _ (fun _ => hk _ (cmdRmd_pwd_mode w s arg)) (fun _ => ?_)
  refine Step.ends_ite _ _ _ _ (fun _ => hk _ (cmdRnfr_pwd_mode s arg)) (fun _ => ?_)
  refine Step.ends_ite _ _ _ _ (fun _ => hk _ (cmdRnto_pwd_mode w s arg)) (fun _ => ?_)
  refine Step.ends_ite _ _ _ _ (fun _ => hk _ (cmdUnimplemented_pwd_mode s cmd)) (fun _ => ?_)
  refine Step.ends_ite _ _ _ _ (fun _ => hk _ (cmdUnimplemented_pwd_mode s cmd)) (fun _ => ?_)
  refine Step.ends_ite _ _ _ _ (fun _ => hk _ (cmdStor_pwd_mode w s arg)) (fun _ => ?_)
  refine Step.ends_ite _ _ _ _ (fun _ => hk _ (cmdSyst_pwd_mode s)) (fun _ => ?_)
  refine Step.ends_ite _ _ _ _ (fun _ => htype arg) (fun _ => ?_)
  exact hk _ (cmdUnimplemented_pwd_mode s cmd)

/-- What `dispatch` maintains for every verb, `update` maintains for every read. -/
theorem update_maintains (I : Session → Prop) (conf : ftpConfig) (w : World) (s : Session)
    (r : RecvResult Char) (hs : I s)
    (hd : ∀ cmd arg, Step.Ends I (dispatch conf w s cmd arg)) :
    Step.Ends (fun p => I p.2) (update conf w s r) := by
  unfold update
  cases r with
  | error => exact Step.ends_pure _ _ hs
  | data bytes =>
    dsimp only
    refine Step.ends_ite _ _ _ _ (fun _ => Step.ends_pure _ _ hs) (fun _ => ?_)
    refine Step.ends_ite _ _ _ _ (fun _ a h => by cases h) (fun _ => ?_)
    refine Step.ends_bind _ _ _ (fun ca => ?_)
    obtain ⟨cmd, arg⟩ := ca
    dsimp only
    exact Step.ends_seq I _ _ _ (hd cmd arg) (fun s' hs' => Step.ends_pure _ _ hs')

/-- What `update` maintains from every session that has the property, holds at the end of a
run that starts with it. -/
theorem runSession_maintains (I : Session → Prop) (conf : ftpConfig)
    (hstep : ∀ (w : World) (s : Session) (r : RecvResult Char), I s →
      Step.Ends (fun p => I p.2) (update conf w s r))
    (inputs : List (World × RecvResult Char)) :
    ∀ s, I s → Step.Ends I (runSession conf s inputs) := by
  induction inputs with
  | nil => exact fun s hs => Step.ends_pure _ _ hs
  | cons x rest ih =>
    intro s hs
    obtain ⟨w, r⟩ := x
    unfold runSession
    exact Step.ends_seq (fun p => I p.2) I _ _ (hstep w s r hs) (fun p hp => ih p.2 hp)

/-- The transfer mode after `TYPE`. -/
theorem cmdType_eq (s : Session) (arg : Str) :
    cmdType s arg =
      if charAt arg 0 = 'I' then
        ⟨[.send s._fd "200 Type set to IMAGE\r\n".toList], .ok { s with mode := 'I' }⟩
      else if charAt arg 0 = 'A' then
        ⟨[.send s._fd "200 Type set to ASCII\r\n".toList], .ok { s with mode := 'A' }⟩
      else
        ⟨[.send s._fd "504 Command parameter not implemented.\r\n".toList], .ok s⟩ := by
  unfold cmdType
  split
  · rfl
  · split
    · rfl
    · rfl

theorem modeOk_maintained (conf : ftpConfig) (w : World) (s : Session) (r : RecvResult Char)
    (hs : s.mode = 'I' ∨ s.mode = 'A') :
    Step.Ends (fun p => p.2.mode = 'I' ∨ p.2.mode = 'A') (update conf w s r) := by
  refine update_maintains (fun s' => s'.mode = 'I' ∨ s'.mode = 'A') conf w s r hs
    (fun cmd arg => ?_)
  refine dispatch_maintains _ conf w s cmd arg (fun s' h => by rw [h.2]; exact hs)
    (fun a => Step.ends_mono _ _ _ (fun s' h => by rw [h]; exact hs) (cmdCwd_mode w s a))
    (fun a => ?_)
  rw [cmdType_eq]
  split
  · exact fun s' h => by cases h; exact Or.inl rfl
  · split
    · exact fun s' h => by cases h; exact Or.inr rfl
    · exact fun s' h => by cases h; exact hs

/-! ## Theorems: `CWD` with an absolute argument -/

/-- The directory `CWD` resolves an argument with a leading separator to. -/
theorem cwdTarget_slash (pwd rest : Str) :
    cwdTarget pwd ('/' :: rest) =
      .ok (if rest = [] then "/".toList else '/' :: rest ++ "/".toList) := by
  have hd : ¬ (charAt ('/' :: rest) 0 = '.' ∧ charAt ('/' :: rest) 1 = '.') := by
    intro hc
    have h1 := hc.1
    rw [charAt_zero_cons] at h1
    exact absurd h1 (by decide)
  have h0 : charAt ('/' :: rest) 0 = '/' := rfl
  simp only [cwdTarget, if_neg hd, if_pos h0]
  cases rest with
  | nil => rfl
  | cons d t =>
    have h1 : ('/' :: d :: t).length > 1 := by simp
    rw [if_pos h1, if_neg (by simp)]
    rfl

/-- C11: for every working directory, an argument that begins with `/` resolves to `/`
when it is exactly `/` and to the argument followed by one `/` otherwise; the working
directory plays no part.  In particular `/bar` resolves to `/bar/`. -/
theorem cwdTarget_absolute (pwd pwd' rest : Str) :
    cwdTarget pwd ('/' :: rest) =
      .ok (if rest = [] then "/".toList else '/' :: rest ++ "/".toList) ∧
    cwdTarget pwd' ('/' :: rest) = cwdTarget pwd ('/' :: rest) ∧
    cwdTarget pwd "/bar".toList = .ok "/bar/".toList ∧
    cwdTarget pwd "/".toList = .ok "/".toList :=
  ⟨cwdTarget_slash pwd rest, by rw [cwdTarget_slash pwd', cwdTarget_slash pwd],
    (cwdTarget_slash pwd "bar".toList).trans (by decide),
    (cwdTarget_slash pwd []).trans (by decide)⟩

/-! ## Theorems: the transfer mode -/

/-- C20: for every session and every argument of `TYPE`: a first character `A` sets the
mode to `A` (ASCII) with the reply `200 Type set to ASCII`, a first character `I` sets it
to `I` (binary) with the reply `200 Type set to IMAGE`, and any other first character, the
single space and the empty argument included, gets the reply `504 Command parameter not
implemented.` and leaves the session as it was.  So the mode is `I` or `A` at every normal
end of a run that starts with the constructor. -/
theorem type_sets_mode (s : Session) (arg : Str) :
    (charAt arg 0 = 'A' → cmdType s arg =
      ⟨[.send s._fd "200 Type set to ASCII\r\n".toList], .ok { s with mode := 'A' }⟩) ∧
    (charAt arg 0 = 'I' → cmdType s arg =
      ⟨[.send s._fd "200 Type set to IMAGE\r\n".toList], .ok { s with mode := 'I' }⟩) ∧
    (charAt arg 0 ≠ 'A' → charAt arg 0 ≠ 'I' → cmdType s arg =
      ⟨[.send s._fd "504 Command parameter not implemented.\r\n".toList], .ok s⟩) ∧
    (charAt " ".toList 0 ≠ 'A' ∧ charAt " ".toList 0 ≠ 'I' ∧
      charAt [] 0 ≠ 'A' ∧ charAt [] 0 ≠ 'I') ∧
    (∀ (conf : ftpConfig) (fd uninitialised : Int) (inputs : List (World × RecvResult Char))
      (s₀ s' : Session), (ftpConnection fd uninitialised).result = .ok s₀ →
      (runSession conf s₀ inputs).result = .ok s' → s'.mode = 'I' ∨ s'.mode = 'A') := by
  refine ⟨fun h => ?_, fun h => ?_, fun hA hI => ?_, by decide, ?_⟩
  · rw [cmdType_eq, if_neg (by rw [h]; decide), if_pos h]
  · rw [cmdType_eq, if_pos h]
  · rw [cmdType_eq, if_neg hI, if_neg hA]
  · intro conf fd g inputs s₀ s' h0 hrun
    have hs0 : s₀.mode = 'I' ∨ s₀.mode = 'A' := by
      cases h0
      exact Or.inl rfl
    exact runSession_maintains (fun t => t.mode = 'I' ∨ t.mode = 'A') conf
      (fun w t r ht => modeOk_maintained conf w t r ht) inputs s₀ hs0 s' hrun

theorem type_sets_mode_witness :
    charAt "A".toList 0 = 'A' ∧
    cmdType Session.fresh "A".toList =
      ⟨[.send 4 "200 Type set to ASCII\r\n".toList],
        .ok { Session.fresh with mode := 'A' }⟩ :=
  ⟨rfl, (type_sets_mode Session.fresh "A".toList).1 rfl⟩

/-! ## Theorems: the working directory -/

/-- What `rfind` returns is `npos` or a position, not beyond the starting one, that holds
the character. -/
theorem rfind_spec (s : Str) (c : Char) (pos : Nat) :
    rfind s c pos = npos ∨ (rfind s c pos ≤ pos ∧ s[rfind s c pos]? = some c) := by
  unfold rfind
  dsimp only
  by_cases hm : c ∈ s.take (pos + 1)
  · rw [if_pos hm]
    right
    have hlen : (s.take (pos + 1)).length ≤ pos + 1 := by
      rw [List.length_take]; exact Nat.min_le_left _ _
    have hm' : c ∈ (s.take (pos + 1)).reverse := List.mem_reverse.mpr hm
    have hi : List.indexOf c (s.take (pos + 1)).reverse < (s.take (pos + 1)).reverse.length :=
      List.indexOf_lt_length.mpr hm'
    have hi' : List.indexOf c (s.take (pos + 1)).reverse < (s.take (pos + 1)).length := by
      simpa using hi
    have hget : (s.take (pos + 1)).reverse[List.indexOf c (s.take (pos + 1)).reverse]? = some c := by
      rw [List.getElem?_eq_getElem hi, List.getElem_indexOf hi]
    rw [List.getElem?_reverse hi'] at hget
    have hr : (s.take (pos + 1)).length - 1 - List.indexOf c (s.take (pos + 1)).reverse < pos + 1 := by
      omega
    rw [List.getElem?_take_of_lt hr] at hget
    exact ⟨by omega, hget⟩
  · rw [if_neg hm]
    left
    rfl

/-- A well-formed directory cut after one of its separators is well formed. -/
theorem take_wellFormed (pwd : Str) (r : Nat) (h : pwdWellFormed pwd)
    (hr : pwd[r]? = some '/') : pwdWellFormed (pwd.take (r + 1)) := by
  obtain ⟨hne, hhead, _⟩ := h
  refine ⟨?_, ?_, ?_⟩
  · intro he
    have := congrArg List.length he
    rw [List.length_take] at this
    have hp : 0 < pwd.length := List.length_pos.mpr hne
    simp only [List.length_nil] at this
    omega
  · rw [List.head?_take, if_neg (by omega), hhead]
  · rw [List.getLast?_take, if_neg (by omega)]
    simp only [Nat.add_sub_cancel, hr]
    rfl

theorem sizeSub_lt (a b : Nat) : sizeSub a b < 2 ^ sizeBits := by
  unfold sizeSub
  exact Nat.mod_lt _ (by simp [sizeBits])

/-- Every directory of more than one character that `cmdCwd` resolves from a well-formed
working directory is well formed. -/
theorem cwdTarget_wellFormed (pwd arg tmp : Str) (h : pwdWellFormed pwd)
    (ht : cwdTarget pwd arg = .ok tmp) (hl : 1 < tmp.length) : pwdWellFormed tmp := by
  unfold cwdTarget at ht
  by_cases hd : charAt arg 0 = '.' ∧ charAt arg 1 = '.'
  · rw [if_pos hd] at ht
    unfold substr at ht
    rw [if_neg (by omega)] at ht
    have hp := sizeSub_lt (rfind pwd '/' npos) 1
    generalize sizeSub (rfind pwd '/' npos) 1 = p at ht hp
    rcases rfind_spec pwd '/' p with hr | ⟨hle, hget⟩
    · rw [hr] at ht
      have hk : sizeAdd npos 1 = 0 := by decide
      rw [hk, if_neg (by decide)] at ht
      simp only [List.drop_zero, List.take_zero, Except.ok.injEq] at ht
      subst ht
      simp at hl
    · by_cases hn : rfind pwd '/' p = npos
      · rw [hn] at ht
        have hk : sizeAdd npos 1 = 0 := by decide
        rw [hk, if_neg (by decide)] at ht
        simp only [List.drop_zero, List.take_zero, Except.ok.injEq] at ht
        subst ht
        simp at hl
      · have hk : sizeAdd (rfind pwd '/' p) 1 = rfind pwd '/' p + 1 := by
          apply sizeAdd_one
          rw [npos_eq] at hn
          simp only [sizeBits] at hp ⊢
          omega
        rw [hk] at ht
        split at ht
        · simp only [List.drop_zero, Except.ok.injEq] at ht
          subst ht
          exact h
        · simp only [List.drop_zero, Except.ok.injEq] at ht
          subst ht
          exact take_wellFormed pwd _ h hget
  · rw [if_neg hd] at ht
    by_cases hs : charAt arg 0 = '/'
    · rw [if_pos hs] at ht
      match arg, hs with
      | c :: rest, hs =>
        have hc : c = '/' := hs
        subst hc
        split at ht
        · cases ht
          refine ⟨by simp, rfl, ?_⟩
          exact List.getLast?_concat ('/' :: rest)
        · cases ht
          simp at hl
    · rw [if_neg hs] at ht
      cases ht
      obtain ⟨hne, hhead, _⟩ := h
      refine ⟨by simp [hne], ?_, ?_⟩
      · rw [List.append_assoc, List.head?_append_of_ne_nil _ hne, hhead]
      · exact List.getLast?_concat _

/-- From a well-formed working directory `cmdCwd` ends with a well-formed one. -/
theorem cmdCwd_wellFormed (w : World) (s : Session) (arg : Str) (h : pwdWellFormed s.pwd) :
    Step.Ends (fun s' => pwdWellFormed s'.pwd) (cmdCwd w s arg) := by
  unfold cmdCwd
  refine Step.ends_seq (fun tmp => cwdTarget s.pwd arg = .ok tmp) _ _ _
    (fun a ha => ha) (fun tmp ht => ?_)
  refine Step.ends_ite _ _ _ _ (fun hl => ?_) (fun _ => ?_)
  · have hw : pwdWellFormed tmp := cwdTarget_wellFormed s.pwd arg tmp h ht hl
    refine Step.ends_bind _ _ _ (fun _ => ?_)
    refine Step.ends_bind _ _ _ (fun _ => ?_)
    refine Step.ends_ite _ _ _ _ (fun _ => ?_) (fun _ => ?_)
    · refine Step.ends_bind _ _ _ (fun _ => ?_)
      refine Step.ends_bind _ _ _ (fun _ => ?_)
      exact Step.ends_pure _ _ hw
    · refine Step.ends_bind _ _ _ (fun _ => ?_)
      refine Step.ends_bind _ _ _ (fun _ => ?_)
      exact Step.ends_pure _ _ h
  · refine Step.ends_bind _ _ _ (fun _ => ?_)
    exact Step.ends_pure _ _ ⟨List.cons_ne_nil _ _, rfl, rfl⟩

/-- C12: at every normal end of a run that starts with the constructor, whatever the
received lines and the answers of the collaborators, the working directory is not empty
and has `/` as its first and as its last character. -/
theorem pwd_always_wellFormed (conf : ftpConfig) (fd uninitialised : Int)
    (inputs : List (World × RecvResult Char)) (s₀ s' : Session)
    (h₀ : (ftpConnection fd uninitialised).result = .ok s₀)
    (hrun : (runSession conf s₀ inputs).result = .ok s') :
    s'.pwd ≠ [] ∧ s'.pwd.head? = some '/' ∧ s'.pwd.getLast? = some '/' := by
  have hs0 : pwdWellFormed s₀.pwd := by
    cases h₀
    exact ⟨List.cons_ne_nil _ _, rfl, rfl⟩
  refine runSession_maintains (fun t => pwdWellFormed t.pwd) conf
    (fun w t r ht => ?_) inputs s₀ hs0 s' hrun
  refine update_maintains (fun t' => pwdWellFormed t'.pwd) conf w t r ht (fun cmd arg => ?_)
  exact dispatch_maintains _ conf w t cmd arg (fun t' h => by rw [h.1]; exact ht)
    (fun a => cmdCwd_wellFormed w t a ht)
    (fun a => Step.ends_mono _ _ _ (fun t' h => by rw [h]; exact ht) (cmdType_pwd t a))

theorem pwd_always_wellFormed_witness :
    (runSession ftpConfig.default Session.fresh
        [(World.permissive, .data "PASS xbox\r\n".toList),
         (World.permissive, .data "CWD C\r\n".toList)]).result =
      .ok { Session.fresh with logged_in := true, pwd := "/C/".toList } ∧
    ("/C/".toList ≠ [] ∧ "/C/".toList.head? = some '/' ∧ "/C/".toList.getLast? = some '/') :=
  ⟨by decide,
   pwd_always_wellFormed ftpConfig.default 4 (-1)
     [(World.permissive, .data "PASS xbox\r\n".toList),
      (World.permissive, .data "CWD C\r\n".toList)]
     Session.fresh { Session.fresh with logged_in := true, pwd := "/C/".toList }
     (by decide) (by decide)⟩

/-! ## Theorems: the existence check of `CWD` -/

theorem Step.liftE_ok_bind {α β : Type} (a : α) (f : α → Step β) :
    (liftE (.ok a) >>= f) = f a := rfl

/-- What `cmdCwd` does when the resolved directory has more than one character. -/
theorem cmdCwd_checked (w : World) (s : Session) (arg tmp dos : Str)
    (ht : cwdTarget s.pwd arg = .ok tmp) (hl : tmp.length > 1)
    (hdos : unixToDosPath tmp = .ok dos) :
    cmdCwd w s arg =
      if w.openExisting (c_str dos) then
        match sprintf (k_reply_format_current_directory_cwd tmp) with
        | .ok reply =>
          ⟨[.CreateFile (c_str dos) false, .send s._fd reply, .CloseHandle],
            .ok { s with pwd := tmp }⟩
        | .error e => ⟨[.CreateFile (c_str dos) false], .error e⟩
      else
        ⟨[.CreateFile (c_str dos) false, .send s._fd "530 Not logged in.\r\n".toList,
          .CloseHandle], .ok s⟩ := by
  unfold cmdCwd
  rw [ht, Step.liftE_ok_bind, if_pos hl, hdos, Step.liftE_ok_bind]
  split
  · cases sprintf (k_reply_format_current_directory_cwd tmp) <;> rfl
  · rfl

/-- What `cmdCwd` does when the resolved directory has at most one character. -/
theorem cmdCwd_unchecked (w : World) (s : Session) (arg tmp : Str)
    (ht : cwdTarget s.pwd arg = .ok tmp) (hl : ¬ tmp.length > 1) :
    cmdCwd w s arg =
      ⟨[.send s._fd "250 \"/\" is current directory.\r\n".toList],
        .ok { s with pwd := "/".toList }⟩ := by
  unfold cmdCwd
  rw [ht, Step.liftE_ok_bind, if_neg hl]
  rfl

/-- C13 as stated fails: with a filesystem in which no path exists, `CWD /` from `/C/`
replaces the working directory by `/`; no existence check is made, let alone one that
succeeds. -/
theorem cwd_root_commits_without_check :
    (∀ path, World.refusing.openExisting path = false) ∧
    cmdCwd World.refusing { Session.withData with pwd := "/C/".toList } "/".toList =
      ⟨[.send 4 "250 \"/\" is current directory.\r\n".toList],
        .ok { Session.withData with pwd := "/".toList }⟩ ∧
    ¬ (∀ s', (cmdCwd World.refusing { Session.withData with pwd := "/C/".toList }
          "/".toList).result = .ok s' → s'.pwd ≠ "/C/".toList →
        ∃ path, World.refusing.openExisting path = true) := by
  refine ⟨fun _ => rfl, by decide, fun h => ?_⟩
  obtain ⟨path, hp⟩ := h { Session.withData with pwd := "/".toList } (by decide) (by decide)
  exact absurd hp (by simp [World.refusing])

/-- C13, amended: when the resolved directory has more than one character and the
filesystem reports that it does not exist, `cmdCwd` (and so `CDUP`) sends the single reply
`530 Not logged in.` and leaves the session as it was; and the working directory changes
only when that check succeeds, to the resolved directory, or when the resolved directory
has at most one character, to `/` without a check. -/
theorem cwd_commits_after_check (w : World) (s : Session) (arg tmp : Str)
    (ht : cwdTarget s.pwd arg = .ok tmp) :
    (∀ dos, tmp.length > 1 → unixToDosPath tmp = .ok dos →
      w.openExisting (c_str dos) = false →
      cmdCwd w s arg =
        ⟨[.CreateFile (c_str dos) false, .send s._fd "530 Not logged in.\r\n".toList,
          .CloseHandle], .ok s⟩) ∧
    (∀ s', (cmdCwd w s arg).result = .ok s' → s'.pwd ≠ s.pwd →
      (tmp.length > 1 ∧ s'.pwd = tmp ∧
        ∃ dos, unixToDosPath tmp = .ok dos ∧ w.openExisting (c_str dos) = true) ∨
      (tmp.length ≤ 1 ∧ s'.pwd = "/".toList)) ∧
    cmdCdup w s = cmdCwd w s "..".toList := by
  refine ⟨fun dos hl hdos hex => ?_, fun s' hres hne => ?_, rfl⟩
  · rw [cmdCwd_checked w s arg tmp dos ht hl hdos, hex]
    rfl
  · by_cases hl : tmp.length > 1
    · cases hdos : unixToDosPath tmp with
      | error e =>
        have : (cmdCwd w s arg).result = .error e := by
          unfold cmdCwd
          rw [ht, Step.liftE_ok_bind, if_pos hl, hdos]
          rfl
        rw [this] at hres
        cases hres
      | ok dos =>
        rw [cmdCwd_checked w s arg tmp dos ht hl hdos] at hres
        by_cases hex : w.openExisting (c_str dos) = true
        · rw [if_pos hex] at hres
          cases hf : sprintf (k_reply_format_current_directory_cwd tmp) with
          | error e =>
            rw [hf] at hres
            cases hres
          | ok reply =>
            rw [hf] at hres
            cases hres
            exact Or.inl ⟨hl, rfl, dos, rfl, hex⟩
        · rw [if_neg hex] at hres
          cases hres
          exact absurd rfl hne
    · rw [cmdCwd_unchecked w s arg tmp ht hl] at hres
      cases hres
      exact Or.inr ⟨by omega, rfl⟩

theorem cwd_commits_after_check_witness :
    cwdTarget "/".toList "C".toList = .ok "/C/".toList ∧
    cmdCwd World.refusing Session.withData "C".toList =
      ⟨[.CreateFile "C:\\".toList false, .send 4 "530 Not logged in.\r\n".toList,
        .CloseHandle], .ok Session.withData⟩ :=
  ⟨by decide,
   (cwd_commits_after_check World.refusing Session.withData "C".toList "/C/".toList
      (by decide)).1 "C:\\".toList (by decide) (by decide) rfl⟩

/-! ## Theorems: the address and port of `PORT` -/

theorem wrapInt_ofNat (n : Nat) (h : n < 2 ^ 31) : wrapInt (n : Int) = n := by
  unfold wrapInt
  omega

theorem toSize_ofNat (n : Nat) (h : n < 2 ^ 32) : toSize (n : Int) = n := by
  unfold toSize sizeBits
  omega

/-- The position `find` returns, read off a splitting of the string at the starting
position. -/
theorem find_of_split (s pre a b : Str) (c : Char) (pos : Nat)
    (hs : s = pre ++ (a ++ c :: b)) (hp : pos = pre.length) (hc : c ∉ a) :
    find s c pos = pre.length + a.length := by
  subst hs hp
  unfold find
  rw [List.drop_left, if_pos (by simp), List.indexOf_append_of_not_mem hc,
    List.indexOf_cons_self]
  rfl

theorem substr_of_split (s pre a b : Str) (pos n : Nat)
    (hs : s = pre ++ (a ++ b)) (hp : pos = pre.length) (hn : n = a.length)
    (hnn : n ≠ npos) : substr s pos n = .ok a := by
  subst hs hp hn
  rw [substr_ok _ _ _ (by simp) hnn, List.drop_left, List.take_left]

theorem substr_tail (s pre b : Str) (pos : Nat) (hs : s = pre ++ b) (hp : pos = pre.length) :
    substr s pos npos = .ok b := by
  subst hs hp
  rw [substr_ok_npos _ _ (by simp), List.drop_left]

/-- The three substrings `cmdPort` cuts, given the positions of the commas it finds. -/
theorem portTarget_of_positions (arg : Str) (n₀ n₁ n₂ n₃ n₄ : Nat)
    (f₀ : find arg ',' 0 = n₀) (f₁ : find arg ',' (n₀ + 1) = n₁)
    (f₂ : find arg ',' (n₁ + 1) = n₂) (f₃ : find arg ',' (n₂ + 1) = n₃)
    (f₄ : find arg ',' (n₃ + 1) = n₄)
    (h₀ : n₀ < n₁) (h₁ : n₁ < n₂) (h₂ : n₂ < n₃) (h₃ : n₃ < n₄) (h₄ : n₄ < 2 ^ 31 - 1) :
    portTarget arg =
      (do
        let address₀ ← substr arg 0 n₃
        let p1 ← substr arg (n₃ + 1) (n₄ - (n₃ + 1))
        let p2 ← substr arg (n₄ + 1) npos
        let n1 ← stoi p1
        let n2 ← stoi p2
        pure (replace address₀ ',' '.', to_string (wrapInt (wrapInt (n1 * 256) + n2)))) := by
  have g₀ : n₀ < 2 ^ 31 - 1 := by omega
  have g₁ : n₁ < 2 ^ 31 - 1 := by omega
  have g₂ : n₂ < 2 ^ 31 - 1 := by omega
  have g₃ : n₃ < 2 ^ 31 - 1 := by omega
  have g₅ : n₄ - (n₃ + 1) < 2 ^ 31 - 1 := by omega
  have g₆ : (n₄ : Int) - ((n₃ + 1 : Nat) : Int) = ((n₄ - (n₃ + 1) : Nat) : Int) := by omega
  have lt31 : ∀ n : Nat, n < 2 ^ 31 - 1 → n < 2 ^ 31 := fun n hn => by omega
  have lt31' : ∀ n : Nat, n < 2 ^ 31 - 1 → n + 1 < 2 ^ 31 := fun n hn => by omega
  have lt32 : ∀ n : Nat, n < 2 ^ 31 - 1 → n < 2 ^ 32 := fun n hn => by omega
  have lt32' : ∀ n : Nat, n < 2 ^ 31 - 1 → n + 1 < 2 ^ 32 := fun n hn => by omega
  have cast1 : ∀ n : Nat, ((n : Int) + 1) = ((n + 1 : Nat) : Int) := fun n => by
    push_cast; rfl
  clear h₀ h₁ h₂ h₃
  have k : ∀ n : Nat, n < 2 ^ 31 - 1 → toSize (wrapInt ((n : Int) + 1)) = n + 1 := by
    intro n hn
    rw [cast1, wrapInt_ofNat _ (lt31' n hn), toSize_ofNat _ (lt32' n hn)]
  have c₃ : toSize (n₃ : Int) = n₃ := toSize_ofNat _ (lt32 _ g₃)
  have c₄ : toSize (wrapInt ((n₄ : Int) - wrapInt ((n₃ : Int) + 1))) = n₄ - (n₃ + 1) := by
    rw [cast1, wrapInt_ofNat _ (lt31' _ g₃), g₆, wrapInt_ofNat _ (lt31 _ g₅),
      toSize_ofNat _ (lt32 _ g₅)]
  have a₀ : wrapInt ((find arg ',' 0 : Nat) : Int) = (n₀ : Int) := by
    rw [f₀, wrapInt_ofNat _ (lt31 _ g₀)]
  have a₁ : wrapInt ((find arg ',' (n₀ + 1) : Nat) : Int) = (n₁ : Int) := by
    rw [f₁, wrapInt_ofNat _ (lt31 _ g₁)]
  have a₂ : wrapInt ((find arg ',' (n₁ + 1) : Nat) : Int) = (n₂ : Int) := by
    rw [f₂, wrapInt_ofNat _ (lt31 _ g₂)]
  have a₃ : wrapInt ((find arg ',' (n₂ + 1) : Nat) : Int) = (n₃ : Int) := by
    rw [f₃, wrapInt_ofNat _ (lt31 _ g₃)]
  have a₄ : wrapInt ((find arg ',' (n₃ + 1) : Nat) : Int) = (n₄ : Int) := by
    rw [f₄, wrapInt_ofNat _ (lt31 _ h₄)]
  unfold portTarget
  simp only [a₀, k n₀ g₀, a₁, k n₁ g₁, a₂, k n₂ g₂, a₃, k n₃ g₃, a₄, k n₄ h₄, c₃, c₄]

/-- The fields `cmdPort` reads from six comma-separated fields of which the first five hold
no comma. -/
theorem portTarget_fields (d₁ d₂ d₃ d₄ d₅ d₆ : Str)
    (h₁ : ',' ∉ d₁) (h₂ : ',' ∉ d₂) (h₃ : ',' ∉ d₃) (h₄ : ',' ∉ d₄) (h₅ : ',' ∉ d₅)
    (hlen : (d₁ ++ ',' :: (d₂ ++ ',' :: (d₃ ++ ',' :: (d₄ ++ ',' :: (d₅ ++ ',' :: d₆))))).length
      < 2 ^ 31 - 1) :
    portTarget (d₁ ++ ',' :: (d₂ ++ ',' :: (d₃ ++ ',' :: (d₄ ++ ',' :: (d₅ ++ ',' :: d₆))))) =
      (do
        let n1 ← stoi d₅
        let n2 ← stoi d₆
        pure (replace (d₁ ++ ',' :: (d₂ ++ ',' :: (d₃ ++ ',' :: d₄))) ',' '.',
          to_string (wrapInt (wrapInt (n1 * 256) + n2)))) := by
  simp only [List.length_append, List.length_cons] at hlen
  generalize harg :
    d₁ ++ ',' :: (d₂ ++ ',' :: (d₃ ++ ',' :: (d₄ ++ ',' :: (d₅ ++ ',' :: d₆)))) = arg
  have f₀ : find arg ',' 0 = d₁.length :=
    (find_of_split arg [] d₁ (d₂ ++ ',' :: (d₃ ++ ',' :: (d₄ ++ ',' :: (d₅ ++ ',' :: d₆))))
      ',' 0 (by rw [← harg]; rfl) rfl h₁).trans (by simp)
  have f₁ : find arg ',' (d₁.length + 1) = d₁.length + 1 + d₂.length :=
    (find_of_split arg (d₁ ++ [',']) d₂ (d₃ ++ ',' :: (d₄ ++ ',' :: (d₅ ++ ',' :: d₆)))
      ',' _ (by rw [← harg]; simp) (by simp) h₂).trans (by simp)
  have f₂ : find arg ',' (d₁.length + 1 + d₂.length + 1)
      = d₁.length + 1 + d₂.length + 1 + d₃.length :=
    (find_of_split arg (d₁ ++ ',' :: (d₂ ++ [','])) d₃ (d₄ ++ ',' :: (d₅ ++ ',' :: d₆))
      ',' _ (by rw [← harg]; simp) (by simp; omega) h₃).trans (by simp; omega)
  have f₃ : find arg ',' (d₁.length + 1 + d₂.length + 1 + d₃.length + 1)
      = d₁.length + 1 + d₂.length + 1 + d₃.length + 1 + d₄.length :=
    (find_of_split arg (d₁ ++ ',' :: (d₂ ++ ',' :: (d₃ ++ [',']))) d₄ (d₅ ++ ',' :: d₆)
      ',' _ (by rw [← harg]; simp) (by simp; omega) h₄).trans (by simp; omega)
  have f₄ : find arg ',' (d₁.length + 1 + d₂.length + 1 + d₃.length + 1 + d₄.length + 1)
      = d₁.length + 1 + d₂.length + 1 + d₃.length + 1 + d₄.length + 1 + d₅.length :=
    (find_of_split arg (d₁ ++ ',' :: (d₂ ++ ',' :: (d₃ ++ ',' :: (d₄ ++ [','])))) d₅ d₆
      ',' _ (by rw [← harg]; simp) (by simp; omega) h₅).trans (by simp; omega)
  have s₁ : substr arg 0 (d₁.length + 1 + d₂.length + 1 + d₃.length + 1 + d₄.length)
      = .ok (d₁ ++ ',' :: (d₂ ++ ',' :: (d₃ ++ ',' :: d₄))) :=
    substr_of_split arg [] (d₁ ++ ',' :: (d₂ ++ ',' :: (d₃ ++ ',' :: d₄)))
      (',' :: (d₅ ++ ',' :: d₆)) 0 _ (by rw [← harg]; simp) rfl (by simp; omega)
      (by rw [npos_eq]; omega)
  have s₂ : substr arg (d₁.length + 1 + d₂.length + 1 + d₃.length + 1 + d₄.length + 1)
      (d₁.length + 1 + d₂.length + 1 + d₃.length + 1 + d₄.length + 1 + d₅.length
        - (d₁.length + 1 + d₂.length + 1 + d₃.length + 1 + d₄.length + 1)) = .ok d₅ :=
    substr_of_split arg (d₁ ++ ',' :: (d₂ ++ ',' :: (d₃ ++ ',' :: (d₄ ++ [','])))) d₅
      (',' :: d₆) _ _ (by rw [← harg]; simp) (by simp; omega) (by omega)
      (by rw [npos_eq]; omega)
  have s₃ : substr arg
      (d₁.length + 1 + d₂.length + 1 + d₃.length + 1 + d₄.length + 1 + d₅.length + 1) npos
      = .ok d₆ :=
    substr_tail arg (d₁ ++ ',' :: (d₂ ++ ',' :: (d₃ ++ ',' :: (d₄ ++ ',' :: (d₅ ++ [','])))))
      d₆ _ (by rw [← harg]; simp) (by simp; omega)
  rw [portTarget_of_positions arg _ _ _ _ _ f₀ f₁ f₂ f₃ f₄ (by omega) (by omega) (by omega)
    (by omega) (by omega), s₁, s₂, s₃]
  rfl

set_option maxRecDepth 8000 in
/-- What the decimal rendering of a number below 256 looks like to `cmdPort`. -/
theorem decimal_octet : ∀ n, n < 256 →
    (',' ∉ decimal n ∧ (decimal n).length ≤ 3 ∧ replace (decimal n) ',' '.' = decimal n ∧
      stoi (decimal n) = .ok (n : Int)) := by
  decide

theorem to_string_ofNat (n : Nat) : to_string (n : Int) = decimal n := by
  unfold to_string decimal
  rw [if_neg (by omega)]
  rfl

/-- What `cmdPort` does once the address and the port are read. -/
theorem cmdPort_of_target (w : World) (s : Session) (arg address port : Str)
    (h : portTarget arg = .ok (address, port)) :
    cmdPort w s arg =
      ⟨[.openConnection address port,
        .send s._fd (if w.openConnection address port ≠ -1 then "200 Port command ok.\r\n".toList
          else "425 Socket creation failed.".toList)],
        .ok { s with dataFd := w.openConnection address port }⟩ := by
  unfold cmdPort
  rw [h, Step.liftE_ok_bind]
  dsimp only
  split <;> rfl

/-- C14: for six numbers below 256 written in decimal and separated by commas, `cmdPort`
asks for a connection to the address made of the first four joined by dots and to the port
that is the decimal rendering of `p₁ * 256 + p₂`, replies according to the answer and
stores the answer in `dataFd`.  In particular `127,0,0,1,19,136` gives `127.0.0.1` and
`5000`. -/
theorem port_address_and_port (w : World) (s : Session) (h₁ h₂ h₃ h₄ p₁ p₂ : Nat)
    (hh₁ : h₁ < 256) (hh₂ : h₂ < 256) (hh₃ : h₃ < 256) (hh₄ : h₄ < 256)
    (hp₁ : p₁ < 256) (hp₂ : p₂ < 256) :
    portTarget (decimal h₁ ++ ',' :: (decimal h₂ ++ ',' :: (decimal h₃ ++ ',' ::
        (decimal h₄ ++ ',' :: (decimal p₁ ++ ',' :: decimal p₂))))) =
      .ok (decimal h₁ ++ '.' :: (decimal h₂ ++ '.' :: (decimal h₃ ++ '.' :: decimal h₄)),
        decimal (p₁ * 256 + p₂)) ∧
    cmdPort w s (decimal h₁ ++ ',' :: (decimal h₂ ++ ',' :: (decimal h₃ ++ ',' ::
        (decimal h₄ ++ ',' :: (decimal p₁ ++ ',' :: decimal p₂))))) =
      ⟨[.openConnection
          (decimal h₁ ++ '.' :: (decimal h₂ ++ '.' :: (decimal h₃ ++ '.' :: decimal h₄)))
          (decimal (p₁ * 256 + p₂)),
        .send s._fd
          (if w.openConnection
              (decimal h₁ ++ '.' :: (decimal h₂ ++ '.' :: (decimal h₃ ++ '.' :: decimal h₄)))
              (decimal (p₁ * 256 + p₂)) ≠ -1
            then "200 Port command ok.\r\n".toList else "425 Socket creation failed.".toList)],
        .ok { s with dataFd := (w.openConnection
          (decimal h₁ ++ '.' :: (decimal h₂ ++ '.' :: (decimal h₃ ++ '.' :: decimal h₄)))
          (decimal (p₁ * 256 + p₂))) }⟩ := by
  obtain ⟨c₁, l₁, r₁, -⟩ := decimal_octet h₁ hh₁
  obtain ⟨c₂, l₂, r₂, -⟩ := decimal_octet h₂ hh₂
  obtain ⟨c₃, l₃, r₃, -⟩ := decimal_octet h₃ hh₃
  obtain ⟨c₄, l₄, r₄, -⟩ := decimal_octet h₄ hh₄
  obtain ⟨c₅, l₅, -, v₅⟩ := decimal_octet p₁ hp₁
  obtain ⟨-, l₆, -, v₆⟩ := decimal_octet p₂ hp₂
  have hport : to_string (wrapInt (wrapInt ((p₁ : Int) * 256) + (p₂ : Int)))
      = decimal (p₁ * 256 + p₂) := by
    have e₁ : ((p₁ : Int) * 256) = ((p₁ * 256 : Nat) : Int) := by push_cast; rfl
    have b₁ : p₁ * 256 < 2 ^ 31 := by omega
    have b₂ : p₁ * 256 + p₂ < 2 ^ 31 := by omega
    have e₂ : ((p₁ * 256 : Nat) : Int) + (p₂ : Int) = ((p₁ * 256 + p₂ : Nat) : Int) := by
      push_cast; rfl
    rw [e₁, wrapInt_ofNat _ b₁, e₂, wrapInt_ofNat _ b₂, to_string_ofNat]
  have haddr : replace (decimal h₁ ++ ',' :: (decimal h₂ ++ ',' :: (decimal h₃ ++ ',' ::
        decimal h₄))) ',' '.'
      = decimal h₁ ++ '.' :: (decimal h₂ ++ '.' :: (decimal h₃ ++ '.' :: decimal h₄)) := by
    have hc : replace [','] ',' '.' = ['.'] := by decide
    have e : decimal h₁ ++ ',' :: (decimal h₂ ++ ',' :: (decimal h₃ ++ ',' :: decimal h₄))
        = decimal h₁ ++ ([','] ++ (decimal h₂ ++ ([','] ++ (decimal h₃ ++ ([','] ++
            decimal h₄))))) := by simp
    rw [e]
    simp only [replace_append, r₁, r₂, r₃, r₄, hc]
    simp
  have ht := portTarget_fields (decimal h₁) (decimal h₂) (decimal h₃) (decimal h₄)
    (decimal p₁) (decimal p₂) c₁ c₂ c₃ c₄ c₅
    (by simp only [List.length_append, List.length_cons]; omega)
  rw [v₅, v₆] at ht
  have ht' : portTarget (decimal h₁ ++ ',' :: (decimal h₂ ++ ',' :: (decimal h₃ ++ ',' ::
        (decimal h₄ ++ ',' :: (decimal p₁ ++ ',' :: decimal p₂))))) =
      .ok (decimal h₁ ++ '.' :: (decimal h₂ ++ '.' :: (decimal h₃ ++ '.' :: decimal h₄)),
        decimal (p₁ * 256 + p₂)) := by
    rw [ht, ← haddr, ← hport]
    rfl
  exact ⟨ht', cmdPort_of_target w s _ _ _ ht'⟩

theorem port_address_and_port_witness :
    (127 < 256 ∧ 0 < 256 ∧ 1 < 256 ∧ 19 < 256 ∧ 136 < 256) ∧
    portTarget "127,0,0,1,19,136".toList = .ok ("127.0.0.1".toList, "5000".toList) :=
  ⟨by decide,
   (port_address_and_port World.permissive Session.withData 127 0 0 1 19 136
      (by decide) (by decide) (by decide) (by decide) (by decide) (by decide)).1⟩

/-! ## Theorems: the address and port of `EPRT` -/

theorem sizeSub_of_le (a b : Nat) (hb : b ≤ a) (ha : a < 2 ^ 32) : sizeSub a b = a - b := by
  unfold sizeSub sizeBits
  have hb' : b % 2 ^ 32 = b := Nat.mod_eq_of_lt (by omega)
  rw [hb']
  omega

/-- The address and the port `cmdEprt` cuts from `d f d address d port d`. -/
theorem eprtTarget_fields (d f : Char) (address port tail : Str)
    (ha : d ∉ address) (hp : d ∉ port)
    (hlen : (d :: f :: d :: (address ++ d :: (port ++ d :: tail))).length < 2 ^ 31 - 1) :
    eprtTarget (d :: f :: d :: (address ++ d :: (port ++ d :: tail))) =
      .ok (address, port) := by
  simp only [List.length_append, List.length_cons] at hlen
  generalize harg : d :: f :: d :: (address ++ d :: (port ++ d :: tail)) = arg
  have hd : charAt arg 0 = d := by rw [← harg]; rfl
  have f₁ : find arg d 3 = 3 + address.length :=
    (find_of_split arg [d, f, d] address (port ++ d :: tail) d 3
      (by rw [← harg]; rfl) rfl ha)
  have f₂ : find arg d (3 + address.length) = 3 + address.length :=
    (find_of_split arg ([d, f, d] ++ address) [] (port ++ d :: tail) d _
      (by rw [← harg]; simp) (by simp; omega) (List.not_mem_nil _)).trans (by simp; omega)
  have f₃ : find arg d (3 + address.length + 1) = 3 + address.length + 1 + port.length :=
    (find_of_split arg ([d, f, d] ++ (address ++ [d])) port tail d _
      (by rw [← harg]; simp) (by simp; omega) hp).trans (by simp; omega)
  have s₁ : substr arg 3 address.length = .ok address :=
    substr_of_split arg [d, f, d] address (d :: (port ++ d :: tail)) 3 _
      (by rw [← harg]; rfl) rfl rfl (by rw [npos_eq]; omega)
  have s₂ : substr arg (3 + address.length + 1) port.length = .ok port :=
    substr_of_split arg ([d, f, d] ++ (address ++ [d])) port (d :: tail) _ _
      (by rw [← harg]; simp) (by simp; omega) rfl (by rw [npos_eq]; omega)
  have b₁ : 3 + address.length < 2 ^ 31 := by omega
  have b₂ : 3 + address.length < 2 ^ 32 := by omega
  have b₃ : 3 + address.length + 1 < 2 ^ 31 := by omega
  have b₄ : 3 + address.length + 1 < 2 ^ 32 := by omega
  have b₅ : 3 + address.length + 1 + port.length < 2 ^ 32 := by omega
  have e₁ : 3 + address.length - 3 = address.length := by omega
  have e₂ : 3 + address.length + 1 + port.length - (3 + address.length + 1) = port.length := by
    omega
  have cast1 : ((3 + address.length : Nat) : Int) + 1 = ((3 + address.length + 1 : Nat) : Int) := by
    push_cast; rfl
  have l₁ : 3 ≤ 3 + address.length := by omega
  have l₂ : 3 + address.length + 1 ≤ 3 + address.length + 1 + port.length := by omega
  clear hlen
  unfold eprtTarget
  simp only [hd, f₁, wrapInt_ofNat _ b₁, toSize_ofNat _ b₂, f₂, sizeSub_of_le _ _ l₁ b₂, e₁,
    s₁, cast1, wrapInt_ofNat _ b₃, toSize_ofNat _ b₄, f₃, sizeSub_of_le _ _ l₂ b₅, e₂, s₂]
  rfl

/-- What `cmdEprt` does once the family is accepted and the address and the port are
read. -/
theorem cmdEprt_of_target (w : World) (s : Session) (arg address port : Str) (family : Int)
    (hf : eprtFamily arg = .ok family) (hfam : family = 1 ∨ family = 2)
    (h : eprtTarget arg = .ok (address, port)) :
    cmdEprt w s arg =
      ⟨[.openConnection address port,
        .send s._fd (if w.openConnection address port ≠ -1 then "200 Port command ok.\r\n".toList
          else "425 Socket creation failed.".toList)],
        .ok { s with dataFd := (w.openConnection address port) }⟩ := by
  have hn : ¬ (family ≠ 1 ∧ family ≠ 2) := by
    rcases hfam with h1 | h2
    · exact fun hc => hc.1 h1
    · exact fun hc => hc.2 h2
  unfold cmdEprt
  rw [hf, Step.liftE_ok_bind, if_neg hn, h, Step.liftE_ok_bind]
  dsimp only
  split <;> rfl

/-- C15: for a delimiter `d`, a family `1` or `2`, and an address and a port that do not
hold `d`, the argument `d family d address d port d` makes `cmdEprt` ask for a connection
to exactly that address and port, reply according to the answer and store the answer in
`dataFd` (the argument being shorter than `2^31 - 1` characters).  In particular
`|1|127.0.0.1|5000|` gives `127.0.0.1` and `5000`, the pair `cmdPort` reads from
`127,0,0,1,19,136`. -/
theorem eprt_address_and_port (w : World) (s : Session) (d f : Char) (address port : Str)
    (hf : f = '1' ∨ f = '2') (ha : d ∉ address) (hp : d ∉ port)
    (hlen : (d :: f :: d :: (address ++ d :: (port ++ [d]))).length < 2 ^ 31 - 1) :
    cmdEprt w s (d :: f :: d :: (address ++ d :: (port ++ [d]))) =
      ⟨[.openConnection address port,
        .send s._fd (if w.openConnection address port ≠ -1 then "200 Port command ok.\r\n".toList
          else "425 Socket creation failed.".toList)],
        .ok { s with dataFd := (w.openConnection address port) }⟩ ∧
    eprtTarget "|1|127.0.0.1|5000|".toList = .ok ("127.0.0.1".toList, "5000".toList) ∧
    portTarget "127,0,0,1,19,136".toList = eprtTarget "|1|127.0.0.1|5000|".toList := by
  refine ⟨?_, by decide, by decide⟩
  have hfam : ∃ family : Int, eprtFamily (d :: f :: d :: (address ++ d :: (port ++ [d])))
      = .ok family ∧ (family = 1 ∨ family = 2) := by
    have hs : substr (d :: f :: d :: (address ++ d :: (port ++ [d]))) 1 1 = .ok [f] :=
      substr_of_split _ [d] [f] (d :: (address ++ d :: (port ++ [d]))) 1 1 rfl rfl rfl
        (by decide)
    unfold eprtFamily
    rw [hs]
    rcases hf with rfl | rfl
    · exact ⟨1, by decide, Or.inl rfl⟩
    · exact ⟨2, by decide, Or.inr rfl⟩
  obtain ⟨family, hfe, hfv⟩ := hfam
  exact cmdEprt_of_target w s _ address port family hfe hfv
    (eprtTarget_fields d f address port [] ha hp hlen)

theorem eprt_address_and_port_witness :
    ('1' = '1' ∨ '1' = '2') ∧ '|' ∉ "127.0.0.1".toList ∧ '|' ∉ "5000".toList ∧
    cmdEprt World.permissive Session.withData "|1|127.0.0.1|5000|".toList =
      ⟨[.openConnection "127.0.0.1".toList "5000".toList,
        .send 4 "200 Port command ok.\r\n".toList],
        .ok { Session.withData with dataFd := 7 }⟩ :=
  ⟨by decide, by decide, by decide,
   (eprt_address_and_port World.permissive Session.withData '|' '1' "127.0.0.1".toList
      "5000".toList (by decide) (by decide) (by decide) (by decide)).1⟩

/-- C16: `cmdEprt` reads the family from the one character after the first delimiter.
With the family token `12` it takes family 1, asks for a connection (to the empty address
and the port `127.0.0.1`) and stores the answer in `dataFd`; with the token `x` or an empty
token `stoi` throws and no reply is sent at all.  Only a token that begins with a digit
other than 1 and 2 gets the reply `502`. -/
theorem eprt_family_token_misread :
    cmdEprt World.permissive Session.withData "|12|127.0.0.1|5000|".toList =
      ⟨[.openConnection [] "127.0.0.1".toList, .send 4 "200 Port command ok.\r\n".toList],
        .ok { Session.withData with dataFd := 7 }⟩ ∧
    cmdEprt World.permissive Session.withData "|x|127.0.0.1|5000|".toList =
      ⟨[], .error .invalid_argument⟩ ∧
    cmdEprt World.permissive Session.withData "||127.0.0.1|5000|".toList =
      ⟨[], .error .invalid_argument⟩ ∧
    cmdEprt World.permissive Session.withData "|3|127.0.0.1|5000|".toList =
      ⟨[.send 4 "502 Unknown address family; use (1,2)\r\n".toList],
        .ok Session.withData⟩ := by
  decide

/-! ## Theorems: the format of replies -/

/-- C18: when the connection cannot be opened, `cmdPort` and `cmdEprt` send the reply
`425 Socket creation failed.` without CR LF at its end, unlike the other replies. -/
theorem reply_425_lacks_crlf :
    cmdPort World.refusing Session.withData "127,0,0,1,19,136".toList =
      ⟨[.openConnection "127.0.0.1".toList "5000".toList,
        .send 4 "425 Socket creation failed.".toList],
        .ok { Session.withData with dataFd := -1 }⟩ ∧
    cmdEprt World.refusing Session.withData "|1|127.0.0.1|5000|".toList =
      ⟨[.openConnection "127.0.0.1".toList "5000".toList,
        .send 4 "425 Socket creation failed.".toList],
        .ok { Session.withData with dataFd := -1 }⟩ ∧
    replyWellFormed "425 Socket creation failed.".toList = false ∧
    replyWellFormed "200 Port command ok.\r\n".toList = true := by
  decide

/-! ## Theorems: malformed commands -/

/-- The flag `update` returns is `false` only when the read returned no byte or an
error. -/
theorem update_false_only_on_closed (conf : ftpConfig) (w : World) (s s' : Session)
    (r : RecvResult Char) (h : (update conf w s r).result = .ok (false, s')) :
    r = .error ∨ r = .data [] := by
  cases r with
  | error => exact Or.inl rfl
  | data bytes =>
    right
    cases bytes with
    | nil => rfl
    | cons c t =>
      exfalso
      have hlen : ¬ (((c :: t).length : Int) ≤ 0) := by
        simp only [List.length_cons]; omega
      by_cases hfull : k_ftp_cmd_buffer_size ≤ (c :: t).length
      · rw [update_full conf w s (c :: t) hfull] at h
        cases h
      unfold update at h
      dsimp only at h
      rw [if_neg hlen, if_neg hfull, Step.result_bind] at h
      cases hp : (liftE (parseCommand (c_str (c :: t)))).result with
      | error e => rw [hp] at h; cases h
      | ok ca =>
        rw [hp] at h
        obtain ⟨cmd, arg⟩ := ca
        change (dispatch conf w s cmd arg >>= fun s' => pure (true, s')).result
          = .ok (false, s') at h
        rw [Step.result_bind] at h
        cases hd : (dispatch conf w s cmd arg).result with
        | error e => rw [hd] at h; cases h
        | ok s₁ => rw [hd] at h; cases h

/-- C19: on the lines `PORT abc`, `EPRT |x|` and `EPRT` with an empty argument (and `DELE
/`), received by a logged-in session, `update` does not return: `stoi` or `substr` throws
inside the handler, no reply is sent and the exception leaves `update`.  `PORT 1,2` is
parsed without an exception. -/
theorem update_throws_on_malformed :
    update ftpConfig.default World.permissive Session.withData (.data "PORT abc\r\n".toList) =
      ⟨[], .error .invalid_argument⟩ ∧
    update ftpConfig.default World.permissive Session.withData (.data "EPRT |x|\r\n".toList) =
      ⟨[], .error .invalid_argument⟩ ∧
    update ftpConfig.default World.permissive Session.withData (.data "EPRT \r\n".toList) =
      ⟨[], .error .out_of_range⟩ ∧
    update ftpConfig.default World.permissive Session.withData (.data "DELE /\r\n".toList) =
      ⟨[], .error .out_of_range⟩ ∧
    update ftpConfig.default World.permissive Session.withData (.data "PORT 1,2\r\n".toList) =
      ⟨[.openConnection "1.2".toList "258".toList, .send 4 "200 Port command ok.\r\n".toList],
        .ok (true, { Session.withData with dataFd := 7 })⟩ := by
  decide


/-! ## Theorems: receiving a file -/

/-- One pass of the loop of `recvFile` on a chunk that is not empty. -/
theorem recvLoop_data (w : World) (fd : Int) (k : Nat) (retVal : Bool) (c : List Nat)
    (more : List (RecvResult Nat)) (hc : c ≠ []) :
    recvLoop w fd k retVal (.data c :: more) =
      ⟨[.recv fd, .WriteFile c (w.WriteFile k c)] ++
          (recvLoop w fd (k + 1) (if w.WriteFile k c ≠ c.length then false else retVal)
            more).events,
        (recvLoop w fd (k + 1) (if w.WriteFile k c ≠ c.length then false else retVal)
            more).result⟩ := by
  have hl : ¬ (c.length = 0) := fun h => hc (List.length_eq_zero.mp h)
  rw [recvLoop]
  simp only [hl, if_false]
  rfl

/-- The loop of `recvFile` ends at a read of no bytes. -/
theorem recvLoop_end (w : World) (fd : Int) (k : Nat) (retVal : Bool)
    (more : List (RecvResult Nat)) :
    recvLoop w fd k retVal (.data [] :: more) = ⟨[.recv fd], .ok retVal⟩ := by
  rw [recvLoop]
  rfl

/-- The loop of `recvFile` over chunks that are all written in full. -/
theorem recvLoop_all_written (w : World) (fd : Int) (rest : List (RecvResult Nat)) :
    ∀ (chunks : List (List Nat)) (k : Nat) (retVal : Bool),
      (∀ c ∈ chunks, c ≠ []) → (∀ k, ∀ c ∈ chunks, w.WriteFile k c = c.length) →
      recvLoop w fd k retVal (chunks.map RecvResult.data ++ RecvResult.data [] :: rest) =
        ⟨(chunks.map (fun c => [Event.recv fd, Event.WriteFile c c.length])).flatten ++
            [.recv fd], .ok retVal⟩ := by
  intro chunks
  induction chunks with
  | nil => intro k retVal _ _; exact recvLoop_end w fd k retVal rest
  | cons c cs ih =>
    intro k retVal hpos hwrite
    have hc : c ≠ [] := hpos c (List.mem_cons_self _ _)
    have hw : w.WriteFile k c = c.length := hwrite k c (List.mem_cons_self _ _)
    have hn : ¬ (w.WriteFile k c ≠ c.length) := fun h => h hw
    rw [List.map_cons, List.cons_append, recvLoop_data w fd k retVal c _ hc, if_neg hn,
      ih (k + 1) retVal (fun c' h' => hpos c' (List.mem_cons_of_mem _ h'))
        (fun k' c' h' => hwrite k' c' (List.mem_cons_of_mem _ h')), hw]
    rfl

theorem writtenBytes_append (a b : List Event) :
    writtenBytes (a ++ b) = writtenBytes a ++ writtenBytes b := by
  induction a with
  | nil => rfl
  | cons e t ih =>
    cases e <;> simp [writtenBytes, ih]

theorem writtenBytes_chunks (fd : Int) (chunks : List (List Nat)) :
    writtenBytes ((chunks.map (fun c => [Event.recv fd, Event.WriteFile c c.length])).flatten)
      = chunks.flatten := by
  induction chunks with
  | nil => rfl
  | cons c cs ih =>
    rw [List.map_cons, List.flatten_cons, writtenBytes_append, ih]
    simp [writtenBytes]

/-- C17, amended: when the file name translates to a path and the destination file is
created, the data socket delivers the chunks `chunks`, none of them empty, and then a read
of no bytes, and every `WriteFile` reports as many bytes written as it was given, then
`recvFile` writes the chunks one after the other (the bytes written are their
concatenation, as many as were read) and returns `true`. -/
theorem recvFile_writes_what_it_reads (w : World) (s : Session) (filename path : Str)
    (chunks : List (List Nat)) (rest : List (RecvResult Nat))
    (hpath : unixToDosPath filename = .ok path) (hopen : w.createAlways (c_str path) = true)
    (hrecv : w.dataRecv = chunks.map RecvResult.data ++ RecvResult.data [] :: rest)
    (hpos : ∀ c ∈ chunks, c ≠ [])
    (hwrite : ∀ k, ∀ c ∈ chunks, w.WriteFile k c = c.length) :
    recvFile w s filename =
      ⟨.CreateFile (c_str path) true ::
          ((chunks.map (fun c => [Event.recv s.dataFd, Event.WriteFile c c.length])).flatten ++
            [.recv s.dataFd, .CloseHandle]), .ok true⟩ ∧
    writtenBytes (recvFile w s filename).events = chunks.flatten ∧
    (writtenBytes (recvFile w s filename).events).length = (chunks.map List.length).sum := by
  have hev : recvFile w s filename =
      ⟨.CreateFile (c_str path) true ::
          ((chunks.map (fun c => [Event.recv s.dataFd, Event.WriteFile c c.length])).flatten ++
            [.recv s.dataFd, .CloseHandle]), .ok true⟩ := by
    unfold recvFile
    rw [hpath, Step.liftE_ok_bind]
    simp only [hopen, Bool.not_true, Bool.false_eq_true, if_false, hrecv,
      recvLoop_all_written w s.dataFd rest chunks 0 true hpos hwrite]
    show (emit _ >>= fun _ => _) = _
    simp only [emit, bind, Step.bind, pure, List.append_assoc, List.singleton_append,
      List.cons_append, List.nil_append, List.append_nil]
  have hwb : writtenBytes (recvFile w s filename).events = chunks.flatten := by
    rw [hev]
    show writtenBytes ([Event.CreateFile (c_str path) true] ++ (_ ++ _)) = _
    rw [writtenBytes_append, writtenBytes_append, writtenBytes_chunks]
    show [] ++ (chunks.flatten ++ []) = _
    simp
  refine ⟨hev, hwb, ?_⟩
  rw [hwb, List.length_flatten]

theorem recvFile_writes_what_it_reads_witness :
    unixToDosPath "/C/f".toList = .ok "C:\\f".toList ∧
    World.delivering.dataRecv =
      [[1, 2], [3]].map RecvResult.data ++ RecvResult.data [] :: [] ∧
    writtenBytes (recvFile World.delivering Session.withData "/C/f".toList).events =
      [1, 2, 3] ∧
    (recvFile World.delivering Session.withData "/C/f".toList).result = .ok true :=
  ⟨by decide, rfl,
   (recvFile_writes_what_it_reads World.delivering Session.withData "/C/f".toList
      "C:\\f".toList [[1, 2], [3]] [] (by decide) rfl rfl (by decide)
      (fun _ _ _ => rfl)).2.1,
   congrArg Step.result
     (recvFile_writes_what_it_reads World.delivering Session.withData "/C/f".toList
        "C:\\f".toList [[1, 2], [3]] [] (by decide) rfl rfl (by decide)
        (fun _ _ _ => rfl)).1⟩

/-! ## Theorems: a first session -/

/-- C22: with the default configuration, a new session greets with `220`, and on the lines
`USER xbox`, `PASS xbox`, `PWD`, `TYPE A` it sends exactly the four replies `331 Password
required.`, `230 User logged in, proceed.`, `257 "/" is current directory` and `200 Type
set to ASCII`, in this order, making no other call; it ends logged in, with working
directory `/` and mode `A`, whatever the collaborators would answer. -/
theorem first_session (fd uninitialised : Int) (w₁ w₂ w₃ w₄ : World) :
    ftpConnection fd uninitialised =
      ⟨[.send fd "220 Please enter your login name now.\r\n".toList],
        .ok { _fd := fd, dataFd := uninitialised, pwd := "/".toList, logged_in := false,
              mode := 'I', rnfr := [] }⟩ ∧
    runSession ftpConfig.default
        { _fd := fd, dataFd := uninitialised, pwd := "/".toList, logged_in := false,
          mode := 'I', rnfr := [] }
        [(w₁, .data "USER xbox\r\n".toList), (w₂, .data "PASS xbox\r\n".toList),
         (w₃, .data "PWD\r\n".toList), (w₄, .data "TYPE A\r\n".toList)] =
      ⟨[.send fd "331 Password required.\r\n".toList,
        .send fd "230 User logged in, proceed.\r\n".toList,
        .send fd "257 \"/\" is current directory\r\n".toList,
        .send fd "200 Type set to ASCII\r\n".toList],
        .ok { _fd := fd, dataFd := uninitialised, pwd := "/".toList, logged_in := true,
              mode := 'A', rnfr := [] }⟩ := by
  constructor
  · rfl
  · rfl

/-! ## Theorems: verbs that are not implemented -/

theorem substr_zero_subset (s t : Str) (n : Nat) (h : substr s 0 n = .ok t) :
    ∀ c ∈ t, c ∈ s := by
  unfold substr at h
  rw [if_neg (by omega)] at h
  split at h
  · cases h
    intro c hc
    simpa using hc
  · cases h
    intro c hc
    rw [List.drop_zero] at hc
    exact List.mem_of_mem_take hc

/-- The verb `update` parses consists of characters of the received text. -/
theorem parseCommand_verb_subset (recvdata cmd arg : Str)
    (h : parseCommand recvdata = .ok (cmd, arg)) : ∀ c ∈ cmd, c ∈ recvdata := by
  unfold parseCommand at h
  dsimp only at h
  split at h
  · cases hs : substr recvdata 0 (find recvdata '\r' 0) with
    | error e => rw [hs] at h; cases h
    | ok t =>
      rw [hs] at h
      cases h
      exact substr_zero_subset recvdata _ _ hs
  · cases ha : substr recvdata (sizeAdd (find recvdata ' ' 0) 1)
        (sizeSub (find recvdata '\r' 0) (sizeAdd (find recvdata ' ' 0) 1)) with
    | error e => rw [ha] at h; cases h
    | ok a =>
      rw [ha] at h
      cases hs : substr recvdata 0 (find recvdata ' ' 0) with
      | error e => rw [hs] at h; cases h
      | ok t =>
        rw [hs] at h
        cases h
        exact substr_zero_subset recvdata _ _ hs

/-- A verb parsed from received bytes holds no zero character, so a reply echoes it
whole. -/
theorem c_str_verb (bytes cmd arg : Str) (h : parseCommand (c_str bytes) = .ok (cmd, arg)) :
    c_str cmd = cmd := by
  unfold c_str
  rw [List.takeWhile_eq_self_iff]
  intro c hc
  have hm : c ∈ c_str bytes := parseCommand_verb_subset _ cmd arg h c hc
  unfold c_str at hm
  have hp := @List.mem_takeWhile_imp _ (fun c => c != (Char.ofNat 0)) bytes c hm
  exact hp

/-! ## Theorems: parsing of a received line -/

theorem find_absent (s : Str) (c : Char) (h : c ∉ s) : find s c 0 = npos := by
  unfold find
  rw [List.drop_zero, if_neg h]

/-- A count that reaches the end of the string gives the whole tail. -/
theorem substr_long (s pre b : Str) (pos n : Nat) (hs : s = pre ++ b) (hp : pos = pre.length)
    (hn : b.length ≤ n) : substr s pos n = .ok b := by
  subst hs hp
  unfold substr
  rw [if_neg (by simp), List.drop_left]
  split
  · rfl
  · rw [List.take_of_length_le hn]

/-- A line without a space and without a carriage return: the verb is the whole line. -/
theorem parseCommand_no_space_no_cr (recvdata : Str) (hsp : ' ' ∉ recvdata)
    (hcr : '\r' ∉ recvdata) : parseCommand recvdata = .ok (recvdata, " ".toList) := by
  unfold parseCommand
  dsimp only
  rw [find_absent recvdata ' ' hsp, if_pos rfl, find_absent recvdata '\r' hcr,
    substr_ok_npos recvdata 0 (Nat.zero_le _)]
  rfl

/-- A line without a space: the verb is the text before the first carriage return. -/
theorem parseCommand_no_space_cr (verb tail : Str) (hsp : ' ' ∉ verb ++ '\r' :: tail)
    (hcr : '\r' ∉ verb) (hlen : (verb ++ '\r' :: tail).length < npos) :
    parseCommand (verb ++ '\r' :: tail) = .ok (verb, " ".toList) := by
  have hf : find (verb ++ '\r' :: tail) '\r' 0 = verb.length := by
    rw [find_of_split (verb ++ '\r' :: tail) [] verb tail '\r' 0 rfl rfl hcr]
    simp
  have hn : verb.length ≠ npos := by
    rw [List.length_append] at hlen
    omega
  unfold parseCommand
  dsimp only
  rw [find_absent _ ' ' hsp, if_pos rfl, hf,
    substr_of_split (verb ++ '\r' :: tail) [] verb ('\r' :: tail) 0 verb.length rfl rfl rfl hn]
  rfl

/-- The verb and the count of the argument for a line with a space. -/
theorem parseCommand_space (verb rest : Str) (hsp : ' ' ∉ verb)
    (hlen : (verb ++ ' ' :: rest).length < npos) :
    parseCommand (verb ++ ' ' :: rest) =
      (substr (verb ++ ' ' :: rest) (verb.length + 1)
        (sizeSub (find (verb ++ ' ' :: rest) '\r' 0) (verb.length + 1))).map
        (fun arg => (verb, arg)) := by
  have hf : find (verb ++ ' ' :: rest) ' ' 0 = verb.length := by
    rw [find_of_split (verb ++ ' ' :: rest) [] verb rest ' ' 0 rfl rfl hsp]
    simp
  have hl : verb.length + 1 + rest.length < 4294967295 := by
    rw [npos_eq] at hlen
    simp only [List.length_append, List.length_cons] at hlen
    omega
  have hn : verb.length ≠ npos := by
    rw [npos_eq]
    omega
  have ha : sizeAdd verb.length 1 = verb.length + 1 :=
    sizeAdd_one _ (by simp only [sizeBits]; omega)
  unfold parseCommand
  dsimp only
  rw [hf, if_neg hn, ha,
    substr_of_split (verb ++ ' ' :: rest) [] verb (' ' :: rest) 0 verb.length rfl rfl rfl hn]
  cases substr (verb ++ ' ' :: rest) (verb.length + 1)
    (sizeSub (find (verb ++ ' ' :: rest) '\r' 0) (verb.length + 1)) <;> rfl

/-- A line with a space and a carriage return after it: the argument is the text between
the first space and the first carriage return. -/
theorem parseCommand_space_cr (verb arg tail : Str) (hsp : ' ' ∉ verb) (hcr : '\r' ∉ verb)
    (hcra : '\r' ∉ arg) (hlen : (verb ++ ' ' :: (arg ++ '\r' :: tail)).length < npos) :
    parseCommand (verb ++ ' ' :: (arg ++ '\r' :: tail)) = .ok (verb, arg) := by
  have hl : verb.length + 1 + arg.length + 1 + tail.length < 4294967295 := by
    rw [npos_eq] at hlen
    simp only [List.length_append, List.length_cons] at hlen
    omega
  have hmem : '\r' ∉ verb ++ ' ' :: arg := by
    simp only [List.mem_append, List.mem_cons, not_or]
    exact ⟨hcr, by decide, hcra⟩
  have hf : find (verb ++ ' ' :: (arg ++ '\r' :: tail)) '\r' 0 =
      verb.length + 1 + arg.length := by
    rw [find_of_split (verb ++ ' ' :: (arg ++ '\r' :: tail)) [] (verb ++ ' ' :: arg) tail
      '\r' 0 (by simp) rfl hmem]
    simp
    omega
  have hs : sizeSub (verb.length + 1 + arg.length) (verb.length + 1) = arg.length := by
    rw [sizeSub_of_le _ _ (by omega) (by omega)]
    omega
  have hn : arg.length ≠ npos := by
    rw [npos_eq]
    omega
  rw [parseCommand_space verb _ hsp hlen, hf, hs,
    substr_of_split (verb ++ ' ' :: (arg ++ '\r' :: tail)) (verb ++ [' ']) arg ('\r' :: tail)
      (verb.length + 1) arg.length (by simp) (by simp) rfl hn]
  rfl

/-- A line with a space and no carriage return: the argument is the text after the first
space. -/
theorem parseCommand_space_no_cr (verb rest : Str) (hsp : ' ' ∉ verb)
    (hcr : '\r' ∉ verb ++ ' ' :: rest) (hlen : (verb ++ ' ' :: rest).length < npos) :
    parseCommand (verb ++ ' ' :: rest) = .ok (verb, rest) := by
  have hl : verb.length + 1 + rest.length < 4294967295 := by
    rw [npos_eq] at hlen
    simp only [List.length_append, List.length_cons] at hlen
    omega
  have hs : rest.length ≤ sizeSub npos (verb.length + 1) := by
    rw [sizeSub_of_le _ _ (by rw [npos_eq]; omega) (by rw [npos_eq]; omega), npos_eq]
    omega
  rw [parseCommand_space verb rest hsp hlen, find_absent _ '\r' hcr,
    substr_long (verb ++ ' ' :: rest) (verb ++ [' ']) rest (verb.length + 1) _ (by simp)
      (by simp) hs]
  rfl

/-- A line whose first carriage return comes before its first space: the count of the
argument wraps around, and the argument is all the text after the first space, the later
carriage returns and line feeds with it. -/
theorem parseCommand_cr_before_space (head mid rest : Str) (hsp : ' ' ∉ head ++ '\r' :: mid)
    (hcr : '\r' ∉ head) (hlen : ((head ++ '\r' :: mid) ++ ' ' :: rest).length < npos) :
    parseCommand ((head ++ '\r' :: mid) ++ ' ' :: rest) = .ok (head ++ '\r' :: mid, rest) := by
  have hl : head.length + 1 + mid.length + 1 + rest.length < 4294967295 := by
    rw [npos_eq] at hlen
    simp only [List.length_append, List.length_cons] at hlen
    omega
  have hf : find ((head ++ '\r' :: mid) ++ ' ' :: rest) '\r' 0 = head.length := by
    rw [find_of_split ((head ++ '\r' :: mid) ++ ' ' :: rest) [] head (mid ++ ' ' :: rest)
      '\r' 0 (by simp) rfl hcr]
    simp
  have hs : rest.length ≤ sizeSub head.length ((head ++ '\r' :: mid).length + 1) := by
    simp only [List.length_append, List.length_cons]
    unfold sizeSub sizeBits
    omega
  rw [parseCommand_space (head ++ '\r' :: mid) rest hsp hlen, hf,
    substr_long ((head ++ '\r' :: mid) ++ ' ' :: rest) ((head ++ '\r' :: mid) ++ [' ']) rest
      ((head ++ '\r' :: mid).length + 1) _ (by simp)
      (by rw [List.length_append (head ++ '\r' :: mid) [' ']]; rfl) hs]
  rfl

/-- C23: the verb and the argument `update` parses from `CWD`, space, CR LF are `CWD` and
the empty text, from `CWD`, two spaces, `x`, CR LF they are `CWD` and a space with `x`, from
`PWD` CR LF they are `PWD` and a single space; but from the two lines `PWD` CR LF `CWD x`
CR LF received together the verb is `PWD` CR LF `CWD` and the argument is `x` CR LF, the
carriage return and the line feed with it, and a logged-in session answers them with one
`502` reply that echoes this verb; likewise from `A` CR `B C` CR LF the argument is `C`
CR LF. -/
theorem parseCommand_argument_keeps_cr :
    parseCommand "CWD \r\n".toList = .ok ("CWD".toList, []) ∧
    parseCommand "CWD  x\r\n".toList = .ok ("CWD".toList, " x".toList) ∧
    parseCommand "PWD\r\n".toList = .ok ("PWD".toList, " ".toList) ∧
    parseCommand "PWD".toList = .ok ("PWD".toList, " ".toList) ∧
    parseCommand "CWD x".toList = .ok ("CWD".toList, "x".toList) ∧
    parseCommand "PWD\r\nCWD x\r\n".toList = .ok ("PWD\r\nCWD".toList, "x\r\n".toList) ∧
    parseCommand "A\rB C\r\n".toList = .ok ("A\rB".toList, "C\r\n".toList) ∧
    update ftpConfig.default World.permissive Session.withData
        (.data "PWD\r\nCWD x\r\n".toList) =
      ⟨[.send 4 "502 PWD\r\nCWD not implemented.\r\n".toList],
        .ok (true, Session.withData)⟩ := by
  refine ⟨?_, ?_, ?_, ?_, ?_, ?_, ?_, ?_⟩ <;> decide

/-! ## Theorems: failure of a reception -/

/-- Every list of read results is a run of chunks that are not empty followed by a rest
that does not begin with such a chunk. -/
theorem recv_results_split (results : List (RecvResult Nat)) :
    ∃ (chunks : List (List Nat)) (term : List (RecvResult Nat)),
      results = chunks.map RecvResult.data ++ term ∧ (∀ c ∈ chunks, c ≠ []) ∧
        (term = [] ∨ term.head? = some .error ∨ term.head? = some (.data [])) := by
  induction results with
  | nil => exact ⟨[], [], rfl, by simp, Or.inl rfl⟩
  | cons r rs ih =>
    obtain ⟨chunks, term, h1, h2, h3⟩ := ih
    cases r with
    | error => exact ⟨[], .error :: rs, rfl, by simp, Or.inr (Or.inl rfl)⟩
    | data bytes =>
      cases bytes with
      | nil => exact ⟨[], .data [] :: rs, rfl, by simp, Or.inr (Or.inr rfl)⟩
      | cons b bs =>
        refine ⟨(b :: bs) :: chunks, term, by rw [h1]; rfl, ?_, h3⟩
        intro c hc
        rcases List.mem_cons.mp hc with h | h
        · rw [h]; exact List.cons_ne_nil _ _
        · exact h2 c h

/-- The loop of `recvFile` where the reads stop: one more `recv`, and the value is false
after an error and the value so far otherwise. -/
theorem recvLoop_stop (w : World) (fd : Int) (k : Nat) (retVal : Bool)
    (term : List (RecvResult Nat))
    (hend : term = [] ∨ term.head? = some .error ∨ term.head? = some (.data [])) :
    recvLoop w fd k retVal term =
      ⟨[.recv fd], .ok (if beginsWithError term then false else retVal)⟩ := by
  cases term with
  | nil => rw [recvLoop]; rfl
  | cons r more =>
    cases r with
    | error => rw [recvLoop]; rfl
    | data c =>
      have hc : c = [] := by
        rcases hend with h | h | h
        · cases h
        · cases h
        · simpa using h
      subst hc
      exact recvLoop_end w fd k retVal more

/-- The loop of `recvFile` over any chunks and any counts written. -/
theorem recvLoop_general (w : World) (fd : Int) (term : List (RecvResult Nat))
    (hend : term = [] ∨ term.head? = some .error ∨ term.head? = some (.data [])) :
    ∀ (chunks : List (List Nat)) (k : Nat) (retVal : Bool),
      (∀ c ∈ chunks, c ≠ []) →
      recvLoop w fd k retVal (chunks.map RecvResult.data ++ term) =
        ⟨loopEvents w fd k chunks ++ [.recv fd],
          .ok (if beginsWithError term then false else (retVal && allWritten w k chunks))⟩ := by
  intro chunks
  induction chunks with
  | nil =>
    intro k retVal _
    rw [List.map_nil, List.nil_append, recvLoop_stop w fd k retVal term hend]
    simp [loopEvents, allWritten]
  | cons c cs ih =>
    intro k retVal hpos
    have hc : c ≠ [] := hpos c (List.mem_cons_self _ _)
    rw [List.map_cons, List.cons_append, recvLoop_data w fd k retVal c _ hc,
      ih (k + 1) _ (fun c' h' => hpos c' (List.mem_cons_of_mem _ h'))]
    by_cases hw : w.WriteFile k c = c.length
    · simp [loopEvents, allWritten, hw]
    · simp [loopEvents, allWritten, hw]

/-- Some chunk is not reported written in full exactly when some write reports a count
other than the length of its chunk. -/
theorem allWritten_false_iff (w : World) :
    ∀ (chunks : List (List Nat)) (k : Nat),
      allWritten w k chunks = false ↔
        ∃ i, ∃ h : i < chunks.length,
          w.WriteFile (k + i) (chunks.get ⟨i, h⟩) ≠ (chunks.get ⟨i, h⟩).length := by
  intro chunks
  induction chunks with
  | nil => intro k; simp [allWritten]
  | cons c cs ih =>
    intro k
    rw [allWritten, Bool.and_eq_false_iff, ih (k + 1)]
    constructor
    · rintro (h | ⟨i, hi, h⟩)
      · exact ⟨0, by simp, by simpa using h⟩
      · refine ⟨i + 1, by simpa using hi, ?_⟩
        have e : k + (i + 1) = k + 1 + i := by omega
        rw [e]
        simpa using h
    · rintro ⟨i, hi, h⟩
      cases i with
      | zero => left; simpa using h
      | succ j =>
        right
        refine ⟨j, by simpa using hi, ?_⟩
        have e : k + (j + 1) = k + 1 + j := by omega
        rw [e] at h
        simpa using h

/-- C24, amended: when the file name translates to a path and the destination file is
created, then for any chunks read (none empty), any rest of the read results that is empty
or begins with an error or a read of no bytes, and any counts the writes report: `recvFile`
reads and writes each chunk in turn whatever the earlier writes reported, makes one more
read, closes the file and does nothing else (no read or write follows an error or a read of
no bytes, whatever the socket would deliver next); it always returns, and it returns false
exactly when that last read was an error or some write reported a count other than the
length of its chunk. -/
theorem recvFile_fails_iff (w : World) (s : Session) (filename path : Str)
    (chunks : List (List Nat)) (term : List (RecvResult Nat))
    (hpath : unixToDosPath filename = .ok path) (hopen : w.createAlways (c_str path) = true)
    (hrecv : w.dataRecv = chunks.map RecvResult.data ++ term)
    (hpos : ∀ c ∈ chunks, c ≠ [])
    (hend : term = [] ∨ term.head? = some .error ∨ term.head? = some (.data [])) :
    (recvFile w s filename).events =
      .CreateFile (c_str path) true ::
        (loopEvents w s.dataFd 0 chunks ++ [.recv s.dataFd, .CloseHandle]) ∧
    (∃ b, (recvFile w s filename).result = .ok b) ∧
    ((recvFile w s filename).result = .ok false ↔
      ((∃ more, term = RecvResult.error :: more) ∨
        ∃ i, ∃ h : i < chunks.length,
          w.WriteFile i (chunks.get ⟨i, h⟩) ≠ (chunks.get ⟨i, h⟩).length)) := by
  have hrun : recvFile w s filename =
      ⟨.CreateFile (c_str path) true ::
          (loopEvents w s.dataFd 0 chunks ++ [.recv s.dataFd, .CloseHandle]),
        .ok (if beginsWithError term then false else (true && allWritten w 0 chunks))⟩ := by
    unfold recvFile
    rw [hpath]
    simp only [Step.liftE_ok_bind]
    show (emit (.CreateFile (c_str path) true) >>= fun _ =>
      if (!w.createAlways (c_str path)) = true then (pure false : Step Bool)
      else recvLoop w s.dataFd 0 true w.dataRecv >>= fun retVal =>
        emit .CloseHandle >>= fun _ => pure retVal) = _
    rw [hopen, hrecv, recvLoop_general w s.dataFd term hend chunks 0 true hpos]
    simp only [emit, bind, Step.bind, pure, Bool.not_true, Bool.false_eq_true, if_false,
      List.append_assoc, List.singleton_append, List.cons_append, List.nil_append,
      List.append_nil]
  have hiff := allWritten_false_iff w chunks 0
  simp only [Nat.zero_add] at hiff
  rw [hrun]
  refine ⟨rfl, ⟨_, rfl⟩, ?_⟩
  dsimp only
  rw [← hiff]
  cases term with
  | nil => simp [beginsWithError]
  | cons r more =>
    cases r with
    | error => simp [beginsWithError]
    | data c => simp [beginsWithError]

theorem recvFile_fails_iff_witness :
    (recvFile World.shortWrite Session.withData "/C/f".toList).events =
      [.CreateFile "C:\\f".toList true, .recv 5, .WriteFile [1, 2] 1, .recv 5,
        .WriteFile [3] 1, .recv 5, .CloseHandle] ∧
    (recvFile World.shortWrite Session.withData "/C/f".toList).result = .ok false ∧
    writtenBytes (recvFile World.shortWrite Session.withData "/C/f".toList).events = [1, 3] ∧
    (recvFile World.brokenRead Session.withData "/C/f".toList).events =
      [.CreateFile "C:\\f".toList true, .recv 5, .WriteFile [1, 2] 2, .recv 5,
        .CloseHandle] ∧
    (recvFile World.brokenRead Session.withData "/C/f".toList).result = .ok false ∧
    (recvFile World.delivering Session.withData "/C/f".toList).result ≠ .ok false :=
  ⟨(recvFile_fails_iff World.shortWrite Session.withData "/C/f".toList "C:\\f".toList
      [[1, 2], [3]] [.data []] (by decide) rfl rfl (by decide) (by decide)).1,
   (recvFile_fails_iff World.shortWrite Session.withData "/C/f".toList "C:\\f".toList
      [[1, 2], [3]] [.data []] (by decide) rfl rfl (by decide) (by decide)).2.2.mpr
      (Or.inr ⟨0, by decide, by decide⟩),
   by decide,
   (recvFile_fails_iff World.brokenRead Session.withData "/C/f".toList "C:\\f".toList
      [[1, 2]] [.error, .data [3], .data []] (by decide) rfl rfl (by decide)
      (by decide)).1,
   (recvFile_fails_iff World.brokenRead Session.withData "/C/f".toList "C:\\f".toList
      [[1, 2]] [.error, .data [3], .data []] (by decide) rfl rfl (by decide)
      (by decide)).2.2.mpr (Or.inl ⟨_, rfl⟩),
   fun h =>
     ((recvFile_fails_iff World.delivering Session.withData "/C/f".toList
       "C:\\f".toList [[1, 2], [3]] [.data []] (by decide) rfl rfl (by decide)
       (by decide)).2.2.mp h).elim (fun ⟨_, hm⟩ => by cases hm)
       (fun ⟨_, _, hw⟩ => hw rfl)⟩

/-! ## Theorems: the capacity of the command buffer -/

theorem c_str_of_no_zero (s : Str) (h : '\x00' ∉ s) : c_str s = s := by
  unfold c_str
  rw [List.takeWhile_eq_self_iff]
  intro c hc
  have hne : c ≠ '\x00' := fun e => h (e ▸ hc)
  simpa using hne

theorem padded_length (verb : Str) (n : Nat) :
    (verb ++ ' ' :: List.replicate n 'x').length = verb.length + 1 + n := by
  rw [List.length_append, List.length_cons, List.length_replicate]
  omega

theorem long_verb_length (n : Nat) :
    (List.replicate n 'X' ++ "\r\n".toList).length = n + 2 := by
  rw [List.length_append, List.length_replicate]
  rfl

/-- The verb and the argument of a line made of a verb, a space and `n` letters `x`. -/
theorem parseCommand_padded (verb : Str) (n : Nat) (h0 : '\x00' ∉ verb) (hsp : ' ' ∉ verb)
    (hcr : '\r' ∉ verb) (hlen : verb.length + 1 + n < npos) :
    parseCommand (c_str (verb ++ ' ' :: List.replicate n 'x')) =
      .ok (verb, List.replicate n 'x') := by
  have hz : '\x00' ∉ verb ++ ' ' :: List.replicate n 'x' := by
    simp only [List.mem_append, List.mem_cons, List.mem_replicate, not_or]
    exact ⟨h0, by decide, fun h => absurd h.2 (by decide)⟩
  have hc : '\r' ∉ verb ++ ' ' :: List.replicate n 'x' := by
    simp only [List.mem_append, List.mem_cons, List.mem_replicate, not_or]
    exact ⟨hcr, by decide, fun h => absurd h.2 (by decide)⟩
  rw [c_str_of_no_zero _ hz]
  exact parseCommand_space_no_cr verb _ hsp hc
    (by simp only [List.length_append, List.length_cons, List.length_replicate]; omega)

/-- The verb of a line made of `n` letters `X`, a carriage return and a line feed. -/
theorem parseCommand_long_verb (n : Nat) (hlen : n + 2 < npos) :
    parseCommand (c_str (List.replicate n 'X' ++ "\r\n".toList)) =
      .ok (List.replicate n 'X', " ".toList) := by
  have hz : '\x00' ∉ List.replicate n 'X' ++ "\r\n".toList := by
    simp only [List.mem_append, List.mem_replicate, not_or]
    exact ⟨fun h => absurd h.2 (by decide), by decide⟩
  have hsp : ' ' ∉ List.replicate n 'X' ++ '\r' :: ['\n'] := by
    simp only [List.mem_append, List.mem_replicate, not_or]
    exact ⟨fun h => absurd h.2 (by decide), by decide⟩
  have hcr : '\r' ∉ List.replicate n 'X' := by
    simp only [List.mem_replicate]
    exact fun h => absurd h.2 (by decide)
  rw [c_str_of_no_zero _ hz]
  exact parseCommand_no_space_cr (List.replicate n 'X') ['\n'] hsp hcr
    (by simp only [List.length_append, List.length_cons, List.length_replicate,
          List.length_nil]; omega)

/-- What the dispatcher does with the verb `AUTH`, in every session. -/
theorem dispatch_AUTH (conf : ftpConfig) (w : World) (s : Session) (arg : Str) :
    dispatch conf w s "AUTH".toList arg =
      ⟨[.send s._fd "502 AUTH not implemented.\r\n".toList], .ok s⟩ := by
  have hd : dispatch conf w s "AUTH".toList arg = cmdUnimplemented s "AUTH".toList := by
    simp [dispatch]
  rw [hd]
  rfl

/-- The dispatcher hands every verb that it does not compare with to `cmdUnimplemented`,
when the session is logged in. -/
theorem dispatch_unknown (conf : ftpConfig) (w : World) (s : Session) (cmd arg : Str)
    (hl : s.logged_in = true) (hT : cmd ∉ commandTable) :
    dispatch conf w s cmd arg = cmdUnimplemented s cmd := by
  have hmem : ∀ v ∈ commandTable, cmd ≠ v := fun v hv hc => hT (hc ▸ hv)
  unfold dispatch
  simp only [hl, if_true,
    if_neg (hmem "USER".toList (by decide)), if_neg (hmem "PASS".toList (by decide)),
    if_neg (hmem "AUTH".toList (by decide)), if_neg (hmem "ABOR".toList (by decide)),
    if_neg (hmem "CWD".toList (by decide)), if_neg (hmem "CDUP".toList (by decide)),
    if_neg (hmem "DELE".toList (by decide)), if_neg (hmem "LIST".toList (by decide)),
    if_neg (hmem "MDTM".toList (by decide)), if_neg (hmem "MKD".toList (by decide)),
    if_neg (hmem "NLST".toList (by decide)), if_neg (hmem "PASV".toList (by decide)),
    if_neg (hmem "PORT".toList (by decide)), if_neg (hmem "EPRT".toList (by decide)),
    if_neg (hmem "PWD".toList (by decide)), if_neg (hmem "QUIT".toList (by decide)),
    if_neg (hmem "RETR".toList (by decide)), if_neg (hmem "RMD".toList (by decide)),
    if_neg (hmem "RNFR".toList (by decide)), if_neg (hmem "RNTO".toList (by decide)),
    if_neg (hmem "SITE".toList (by decide)), if_neg (hmem "SIZE".toList (by decide)),
    if_neg (hmem "STOR".toList (by decide)), if_neg (hmem "SYST".toList (by decide)),
    if_neg (hmem "TYPE".toList (by decide))]

/-- The `502` reply for a verb without zero character is 23 characters longer than the
verb. -/
theorem k_reply_not_implemented_length (verb : Str) (h : c_str verb = verb) :
    k_reply_not_implemented verb = "502 ".toList ++ verb ++ " not implemented.\r\n".toList ∧
    (k_reply_not_implemented verb).length = verb.length + 23 := by
  unfold k_reply_not_implemented
  rw [h]
  refine ⟨rfl, ?_⟩
  simp only [List.length_append]
  have h1 : "502 ".toList.length = 4 := rfl
  have h2 : " not implemented.\r\n".toList.length = 19 := rfl
  rw [h1, h2]
  omega

/-- The handler `cmdUnimplemented` for a verb of at most 1000 characters: the reply fits in
the command buffer. -/
theorem cmdUnimplemented_fits (s : Session) (verb : Str) (h : c_str verb = verb)
    (hlen : verb.length ≤ 1000) :
    cmdUnimplemented s verb =
      ⟨[.send s._fd ("502 ".toList ++ verb ++ " not implemented.\r\n".toList)], .ok s⟩ := by
  obtain ⟨htext, hl⟩ := k_reply_not_implemented_length verb h
  have hs : sprintf (k_reply_not_implemented verb) = .ok (k_reply_not_implemented verb) := by
    unfold sprintf k_ftp_cmd_buffer_size
    rw [if_neg (by omega)]
  unfold cmdUnimplemented
  rw [hs, Step.liftE_ok_bind, htext]
  rfl

/-- The handler `cmdUnimplemented` for a verb of more than 1000 characters: `sprintf` writes
the reply past the end of the command buffer, and nothing is sent. -/
theorem cmdUnimplemented_overflows (s : Session) (verb : Str) (h : c_str verb = verb)
    (hlen : 1000 < verb.length) :
    cmdUnimplemented s verb = ⟨[], .error .out_of_bounds⟩ := by
  obtain ⟨_, hl⟩ := k_reply_not_implemented_length verb h
  have hs : sprintf (k_reply_not_implemented verb) = .error .out_of_bounds := by
    unfold sprintf k_ftp_cmd_buffer_size
    rw [if_pos (by omega)]
  unfold cmdUnimplemented
  rw [hs]
  rfl

/-- C1: for every configuration, session and argument the dispatcher answers the verb
`PASS` with the single reply `230 User logged in, proceed.` and sets `logged_in` when the
argument equals the configured password, and with the single reply `530 login
authentication failed.` and an unchanged session otherwise, whatever the session was before
(no earlier `USER` is needed); and `update` does exactly this for every received `PASS`
line that is shorter than the command buffer.  But for a `PASS` line that fills the command
buffer (`k_ftp_cmd_buffer_size` bytes) `update` writes the terminating zero behind the
buffer, and sends no reply. -/
theorem pass_succeeds_iff_password (conf : ftpConfig) (w : World) (s : Session)
    (bytes arg : Str) (h : parseCommand (c_str bytes) = .ok ("PASS".toList, arg)) :
    (dispatch conf w s "PASS".toList arg =
      if arg = conf.password then
        ⟨[.send s._fd "230 User logged in, proceed.\r\n".toList],
          .ok { s with logged_in := true }⟩
      else ⟨[.send s._fd "530 login authentication failed.\r\n".toList], .ok s⟩) ∧
    (bytes.length < k_ftp_cmd_buffer_size →
      (arg = conf.password →
        update conf w s (.data bytes) =
          ⟨[.send s._fd "230 User logged in, proceed.\r\n".toList],
            .ok (true, { s with logged_in := true })⟩) ∧
      (arg ≠ conf.password →
        update conf w s (.data bytes) =
          ⟨[.send s._fd "530 login authentication failed.\r\n".toList], .ok (true, s)⟩) ∧
      (((update conf w s (.data bytes)).events =
            [.send s._fd "230 User logged in, proceed.\r\n".toList] ∧
          ∃ s', (update conf w s (.data bytes)).result = .ok (true, s') ∧
            s'.logged_in = true)
        ↔ arg = conf.password)) ∧
    (k_ftp_cmd_buffer_size ≤ bytes.length →
      update conf w s (.data bytes) = ⟨[], .error .out_of_bounds⟩) := by
  refine ⟨dispatch_PASS conf w s arg, fun hfit => ?_, update_full conf w s bytes⟩
  have hu := update_PASS conf w s bytes arg hfit h
  by_cases hp : arg = conf.password
  · rw [if_pos hp] at hu
    refine ⟨fun _ => hu, fun hn => absurd hp hn, ?_⟩
    rw [hu]
    exact ⟨fun _ => hp, fun _ => ⟨rfl, _, rfl, rfl⟩⟩
  · rw [if_neg hp] at hu
    refine ⟨fun hn => absurd hn hp, fun _ => hu, ?_⟩
    rw [hu]
    refine ⟨fun hc => ?_, fun hc => absurd hc hp⟩
    have h1 := hc.1
    simp only [List.cons.injEq, Event.send.injEq, and_true, true_and] at h1
    exact absurd h1 (by decide)

theorem pass_succeeds_iff_password_witness :
    (parseCommand (c_str "PASS xbox\r\n".toList) = .ok ("PASS".toList, "xbox".toList) ∧
      update ftpConfig.default World.permissive Session.fresh
          (.data "PASS xbox\r\n".toList) =
        ⟨[.send 4 "230 User logged in, proceed.\r\n".toList],
          .ok (true, { Session.fresh with logged_in := true })⟩) ∧
    (("PASS".toList ++ ' ' :: List.replicate 1019 'x').length = 1024 ∧
      parseCommand (c_str ("PASS".toList ++ ' ' :: List.replicate 1019 'x')) =
        .ok ("PASS".toList, List.replicate 1019 'x') ∧
      update ftpConfig.default World.permissive Session.fresh
          (.data ("PASS".toList ++ ' ' :: List.replicate 1019 'x')) =
        ⟨[], .error .out_of_bounds⟩) :=
  ⟨⟨by decide,
    ((pass_succeeds_iff_password ftpConfig.default World.permissive Session.fresh
      "PASS xbox\r\n".toList "xbox".toList (by decide)).2.1 (by decide)).1 (by decide)⟩,
   ⟨padded_length "PASS".toList 1019,
    parseCommand_padded "PASS".toList 1019 (by decide) (by decide) (by decide) (by decide),
    (pass_succeeds_iff_password ftpConfig.default World.permissive Session.fresh
      ("PASS".toList ++ ' ' :: List.replicate 1019 'x') (List.replicate 1019 'x')
      (parseCommand_padded "PASS".toList 1019 (by decide) (by decide) (by decide)
        (by decide))).2.2 (by rw [padded_length]; decide)⟩⟩

/-- C2: for every session that is not logged in and every received line shorter than the
command buffer whose verb is one of the post-authentication verbs, whatever its argument,
`update` makes exactly one call, the reply `530 Not logged in.` on the control socket,
answers `true` and leaves every field of the session as it was.  But for such a line that
fills the command buffer (`k_ftp_cmd_buffer_size` bytes) `update` writes the terminating
zero behind the buffer, and sends no reply. -/
theorem not_logged_in_gate (conf : ftpConfig) (w : World) (s : Session)
    (bytes cmd arg : Str) (hs : s.logged_in = false)
    (h : parseCommand (c_str bytes) = .ok (cmd, arg)) (hv : cmd ∈ postAuthVerbs) :
    (bytes.length < k_ftp_cmd_buffer_size →
      update conf w s (.data bytes) =
        ⟨[.send s._fd "530 Not logged in.\r\n".toList], .ok (true, s)⟩) ∧
    (k_ftp_cmd_buffer_size ≤ bytes.length →
      update conf w s (.data bytes) = ⟨[], .error .out_of_bounds⟩) := by
  refine ⟨fun hfit => ?_, update_full conf w s bytes⟩
  have hne : cmd ≠ [] := by
    rintro rfl
    exact absurd hv (by decide)
  rw [update_data conf w s bytes cmd arg (bytes_ne_nil bytes cmd arg h hne) hfit h]
  have hU : cmd ≠ "USER".toList := by
    rintro rfl
    exact absurd hv (by decide)
  have hP : cmd ≠ "PASS".toList := by
    rintro rfl
    exact absurd hv (by decide)
  have hA : cmd ≠ "AUTH".toList := by
    rintro rfl
    exact absurd hv (by decide)
  have hd : dispatch conf w s cmd arg =
      (do sendStdString s k_reply_not_logged_in; pure s) := by
    simp only [dispatch, if_neg hU, if_neg hP, if_neg hA, hs]
    rfl
  rw [hd]
  rfl

theorem not_logged_in_gate_witness :
    Session.fresh.logged_in = false ∧
    update ftpConfig.default World.permissive Session.fresh (.data "RETR /C/f\r\n".toList) =
      ⟨[.send 4 "530 Not logged in.\r\n".toList], .ok (true, Session.fresh)⟩ ∧
    ("RETR".toList ++ ' ' :: List.replicate 1019 'x').length = 1024 ∧
    parseCommand (c_str ("RETR".toList ++ ' ' :: List.replicate 1019 'x')) =
      .ok ("RETR".toList, List.replicate 1019 'x') ∧
    update ftpConfig.default World.permissive Session.fresh
        (.data ("RETR".toList ++ ' ' :: List.replicate 1019 'x')) =
      ⟨[], .error .out_of_bounds⟩ :=
  ⟨rfl,
   (not_logged_in_gate ftpConfig.default World.permissive Session.fresh
      "RETR /C/f\r\n".toList "RETR".toList "/C/f".toList rfl (by decide) (by decide)).1
      (by decide),
   padded_length "RETR".toList 1019,
   parseCommand_padded "RETR".toList 1019 (by decide) (by decide) (by decide) (by decide),
   (not_logged_in_gate ftpConfig.default World.permissive Session.fresh
      ("RETR".toList ++ ' ' :: List.replicate 1019 'x') "RETR".toList
      (List.replicate 1019 'x') rfl
      (parseCommand_padded "RETR".toList 1019 (by decide) (by decide) (by decide)
        (by decide)) (by decide)).2 (by rw [padded_length]; decide)⟩

/-- C21: for a received line that is shorter than the command buffer: when its verb is
`AUTH` it gets, logged in or not, the single reply `502 AUTH not implemented.` and the
session stays as it was; and in a logged-in session, when its verb is not, character for
character, one of the verbs `update` compares with (`user`, `Pwd`, `FOO` and a lone line
feed are none of them) and has at most 1000 characters, it gets the single reply
`502 <verb> not implemented.` with that verb, and the session stays as it was.  But when
such a verb has more than 1000 characters `sprintf` writes the reply past the end of the
command buffer, and when the line fills the command buffer `update` writes the terminating
zero behind it: in both cases no reply is sent. -/
theorem unimplemented_verbs (conf : ftpConfig) (w : World) (s : Session)
    (bytes cmd arg : Str) (hne : bytes ≠ [])
    (h : parseCommand (c_str bytes) = .ok (cmd, arg)) :
    (bytes.length < k_ftp_cmd_buffer_size →
      (cmd = "AUTH".toList →
        update conf w s (.data bytes) =
          ⟨[.send s._fd "502 AUTH not implemented.\r\n".toList], .ok (true, s)⟩) ∧
      (s.logged_in = true → cmd ∉ commandTable → cmd.length ≤ 1000 →
        update conf w s (.data bytes) =
          ⟨[.send s._fd ("502 ".toList ++ cmd ++ " not implemented.\r\n".toList)],
            .ok (true, s)⟩) ∧
      (s.logged_in = true → cmd ∉ commandTable → 1000 < cmd.length →
        update conf w s (.data bytes) = ⟨[], .error .out_of_bounds⟩)) ∧
    (k_ftp_cmd_buffer_size ≤ bytes.length →
      update conf w s (.data bytes) = ⟨[], .error .out_of_bounds⟩) ∧
    ("user".toList ∉ commandTable ∧ "Pwd".toList ∉ commandTable ∧
      "FOO".toList ∉ commandTable ∧ "\n".toList ∉ commandTable) := by
  refine ⟨fun hfit => ?_, update_full conf w s bytes, by decide⟩
  rw [update_data conf w s bytes cmd arg hne hfit h]
  refine ⟨fun hA => ?_, fun hl hT hlen => ?_, fun hl hT hlen => ?_⟩
  · subst hA
    rw [dispatch_AUTH]
    rfl
  · rw [dispatch_unknown conf w s cmd arg hl hT,
      cmdUnimplemented_fits s cmd (c_str_verb bytes cmd arg h) hlen]
    rfl
  · rw [dispatch_unknown conf w s cmd arg hl hT,
      cmdUnimplemented_overflows s cmd (c_str_verb bytes cmd arg h) hlen]
    rfl

theorem unimplemented_verbs_witness :
    (parseCommand (c_str "FOO bar\r\n".toList) = .ok ("FOO".toList, "bar".toList) ∧
      update ftpConfig.default World.permissive Session.withData
          (.data "FOO bar\r\n".toList) =
        ⟨[.send 4 "502 FOO not implemented.\r\n".toList], .ok (true, Session.withData)⟩) ∧
    ((List.replicate 1001 'X' ++ "\r\n".toList).length = 1003 ∧
      parseCommand (c_str (List.replicate 1001 'X' ++ "\r\n".toList)) =
        .ok (List.replicate 1001 'X', " ".toList) ∧
      update ftpConfig.default World.permissive Session.withData
          (.data (List.replicate 1001 'X' ++ "\r\n".toList)) =
        ⟨[], .error .out_of_bounds⟩) ∧
    (("AUTH".toList ++ ' ' :: List.replicate 1019 'x').length = 1024 ∧
      parseCommand (c_str ("AUTH".toList ++ ' ' :: List.replicate 1019 'x')) =
        .ok ("AUTH".toList, List.replicate 1019 'x') ∧
      update ftpConfig.default World.permissive Session.fresh
          (.data ("AUTH".toList ++ ' ' :: List.replicate 1019 'x')) =
        ⟨[], .error .out_of_bounds⟩) :=
  ⟨⟨by decide,
    ((unimplemented_verbs ftpConfig.default World.permissive Session.withData
      "FOO bar\r\n".toList "FOO".toList "bar".toList (by decide) (by decide)).1
      (by decide)).2.1 rfl (by decide) (by decide)⟩,
   ⟨long_verb_length 1001,
    parseCommand_long_verb 1001 (by decide),
    ((unimplemented_verbs ftpConfig.default World.permissive Session.withData
      (List.replicate 1001 'X' ++ "\r\n".toList) (List.replicate 1001 'X') " ".toList
      (List.append_ne_nil_of_right_ne_nil _ (by decide))
      (parseCommand_long_verb 1001 (by decide))).1
      (by rw [long_verb_length]; decide)).2.2 rfl
      (fun hm => by
        have hshort := (show ∀ v ∈ commandTable, v.length ≤ 4 by decide) _ hm
        rw [List.length_replicate] at hshort
        omega)
      (by rw [List.length_replicate]; decide)⟩,
   ⟨padded_length "AUTH".toList 1019,
    parseCommand_padded "AUTH".toList 1019 (by decide) (by decide) (by decide) (by decide),
    (unimplemented_verbs ftpConfig.default World.permissive Session.fresh
      ("AUTH".toList ++ ' ' :: List.replicate 1019 'x') "AUTH".toList
      (List.replicate 1019 'x') (List.append_ne_nil_of_right_ne_nil _ (List.cons_ne_nil _ _))
      (parseCommand_padded "AUTH".toList 1019 (by decide) (by decide) (by decide)
        (by decide))).2.1 (by rw [padded_length]; decide)⟩⟩

/-! ## Theorems: a destination file that cannot be created -/

/-- C17 as stated fails: the data socket delivers the chunks `01 02` and `03` and then a
read of no bytes, and every write would report as many bytes written as it is given, but
the destination file cannot be created: `recvFile` makes the one call `CreateFile`, reads
and writes nothing, and returns false. -/
theorem recvFile_not_created_no_success :
    World.uncreatable.dataRecv =
      [[1, 2], [3]].map RecvResult.data ++ RecvResult.data [] :: [] ∧
    (∀ k c, World.uncreatable.WriteFile k c = c.length) ∧
    recvFile World.uncreatable Session.withData "/C/f".toList =
      ⟨[.CreateFile "C:\\f".toList true], .ok false⟩ ∧
    writtenBytes (recvFile World.uncreatable Session.withData "/C/f".toList).events ≠
      [1, 2, 3] := by
  refine ⟨rfl, fun _ _ => rfl, by decide, by decide⟩

/-- C24 as stated fails: with a destination file that cannot be created `recvFile` returns
false although it makes no read and no write, so that no read returned an error and no
write reported a count other than the one it was given. -/
theorem recvFile_not_created_fails :
    (recvFile World.uncreatable Session.withData "/C/f".toList).result = .ok false ∧
    (recvFile World.uncreatable Session.withData "/C/f".toList).events =
      [.CreateFile "C:\\f".toList true] ∧
    RecvResult.error ∉ World.uncreatable.dataRecv ∧
    (∀ k c, World.uncreatable.WriteFile k c = c.length) := by
  refine ⟨by decide, by decide, by decide, fun _ _ => rfl⟩

end OGXboxFTP
